import Mathlib

/-!
Verification of the rule-matching engine in `src/services/match.ts`.

The engine's pure core is embedded shallowly:
* JSONB condition documents become `JVal` / `Cond` (an association list of
  string keys to JSON values; JSON numbers are modelled as integers, which
  covers every value the condition schema uses).
* `buildCtx`, `evalConditions`, `computeDueDate`, `toPublic` and the pure body
  of `matchRules` are translated function by function.  The SQL candidate
  query and the 60-second candidate cache are I/O collaborators (spec §4.2,
  §4.3: a cold cache must produce identical results to a warm one), so
  `matchRules` here takes the retrieved candidate rows as an argument.
* Places where the JavaScript would throw (string operations on non-string
  array elements, `toISOString` on an invalid `Date`) are modelled with
  `Option`/`Except`: `none` / `.error ()` is an exception escaping the
  function.
-/

/-- A JSON value as stored in the `conditions` JSONB column.  JSON numbers are
restricted to integers (all condition values in the catalog are integral). -/
inductive JVal where
  | null : JVal
  | bool : Bool → JVal
  | num : Int → JVal
  | str : String → JVal
  | arr : List JVal → JVal
deriving Repr

/-- A JSON object: association list of fields (JS objects have unique keys). -/
def Cond := List (String × JVal)

/-- Property lookup `conditions.k` (returns `undefined` = `none` if absent). -/
def getKey : Cond → String → Option JVal
  | [], _ => none
  | (k', v) :: rest, k => if k' = k then some v else getKey rest k

/-- ASCII-wise `toUpperCase` over the character list (the catalog and form
data are ASCII; implemented over `String.data` so that proofs can evaluate
it). -/
def toUpperK (s : String) : String := String.mk (s.data.map Char.toUpper)

/-- ASCII-wise `toLowerCase` over the character list. -/
def toLowerK (s : String) : String := String.mk (s.data.map Char.toLower)

/-- `trim`: strip whitespace from both ends, over the character list. -/
def trimK (s : String) : String :=
  String.mk (((s.data.dropWhile Char.isWhitespace).reverse.dropWhile
    Char.isWhitespace).reverse)

/-- `slice(0, n)` over the character list. -/
def takeK (s : String) (n : Nat) : String := String.mk (s.data.take n)

/-- `normalizeStr`: `(s ?? "").trim()`. -/
def normalizeStr (s : String) : String := trimK s

/-- `normState`: trim then uppercase. -/
def normState (s : String) : String := toUpperK (normalizeStr s)

/-- `normCity`: trim then lowercase. -/
def normCity (s : String) : String := toLowerK (normalizeStr s)

/-- `lc`: trim then lowercase. -/
def lc (s : String) : String := toLowerK (normalizeStr s)

/-- `hasAny(a, b)`: true iff both lists are non-empty and some element of `b`
is in `a` (the source builds a `Set` from `a` and scans `b`). -/
def hasAny (a b : List String) : Bool :=
  if a.isEmpty || b.isEmpty then false else b.any fun x => a.contains x

/-- JS `array.includes(t)` for a string `t`: `===` only equates `t` with a
string element equal to it. -/
def strIncludes (l : List JVal) (t : String) : Bool :=
  l.any fun v => match v with
    | .str s => s == t
    | _ => false

/-- `hasAny(conditionArray, ctxStrings)` where the condition array holds raw
JSON values and the context side holds strings (`Set.has` uses `===`). -/
def hasAnyJ (a : List JVal) (b : List String) : Bool :=
  if a.isEmpty || b.isEmpty then false else b.any fun x => strIncludes a x

/-- `lc` applied to a raw JSON array element: `lc(null)` is `""` (because of
`?? ""`), a string is lowercased, and any other value throws (`.trim` is not a
function on numbers/booleans/arrays), modelled as `none`. -/
def jsLc : JVal → Option String
  | .str s => some (lc s)
  | .null => some ""
  | _ => none

/-- `normCity` applied to a raw JSON array element (throws on non-strings). -/
def jsNormCity : JVal → Option String
  | .str s => some (normCity s)
  | .null => some ""
  | _ => none

/-- `normState` applied to a raw JSON array element (throws on non-strings). -/
def jsNormState : JVal → Option String
  | .str s => some (normState s)
  | .null => some ""
  | _ => none

/-- JS falsiness of a JSON value (`!v`).  `NaN` is not representable. -/
def jvalFalsy : JVal → Bool
  | .null => true
  | .bool b => !b
  | .num n => n == 0
  | .str s => s == ""
  | .arr _ => false

mutual
/-- JS `String(v)` / `ToString` for the JSON values a payload property or a
condition value can hold: strings pass through, numbers and booleans print,
`null` prints as `"null"` standalone, and arrays `join(",")` their elements
(`null` elements join as the empty string). -/
def jsToString : JVal → String
  | .str s => s
  | .num n => toString n
  | .bool b => if b then "true" else "false"
  | .null => "null"
  | .arr l => jsJoin l
/-- `Array.prototype.join(",")` over raw JSON elements. -/
def jsJoin : List JVal → String
  | [] => ""
  | [JVal.null] => ""
  | [x] => jsToString x
  | JVal.null :: xs => "," ++ jsJoin xs
  | x :: xs => jsToString x ++ "," ++ jsJoin xs
end

/-- Decimal value of a digit list. -/
def digitsToNat (cs : List Char) : Nat :=
  cs.foldl (fun a c => a * 10 + (c.toNat - '0'.toNat)) 0

/-- Hexadecimal digit value. -/
def hexDigitVal (c : Char) : Option Nat :=
  if c.isDigit then some (c.toNat - '0'.toNat)
  else if 'a' ≤ c ∧ c ≤ 'f' then some (c.toNat - 'a'.toNat + 10)
  else if 'A' ≤ c ∧ c ≤ 'F' then some (c.toNat - 'A'.toNat + 10)
  else none

/-- Octal digit value. -/
def octDigitVal (c : Char) : Option Nat :=
  if c.isDigit ∧ c ≤ '7' then some (c.toNat - '0'.toNat) else none

/-- Binary digit value. -/
def binDigitVal (c : Char) : Option Nat :=
  if c = '0' then some 0 else if c = '1' then some 1 else none

/-- Value of a non-empty all-valid digit string in a given radix. -/
def radixVal (digit : Char → Option Nat) (base : Nat) (cs : List Char) : Option Nat :=
  match cs with
  | [] => none
  | _ => cs.foldl (fun acc c =>
      match acc, digit c with
      | some a, some d => some (a * base + d)
      | _, _ => none) (some 0)

/-- IEEE-754 double overflow threshold: a conversion whose exact magnitude is
at least `2^1024 - 2^970` rounds to `Infinity`. -/
def doubleOverflow : Nat := 2 ^ 1024 - 2 ^ 970

/-- Assemble a parsed decimal literal `[-] mant / 10^fracLen * 10^ex` into a
scaled-integer value `a / 10^k`, detecting overflow to `Infinity` (`none`).
The model computes exact values; IEEE rounding of magnitudes beyond `2^53`,
which no claim observes, is not modelled. -/
def scaledOfParts (neg : Bool) (mant fracLen : Nat) (ex : Int) : Option (Int × Nat) :=
  if mant = 0 then some (0, 0)
  else if 400 ≤ ex - fracLen then none
  else
    let core : Int × Nat :=
      if 0 ≤ ex - fracLen then ((mant : Int) * 10 ^ (ex - fracLen).toNat, 0)
      else ((mant : Int), (fracLen - ex).toNat)
    let a := core.1
    let k := core.2
    if 309 + k ≤ (toString a.natAbs).length then
      if doubleOverflow * 10 ^ k ≤ a.natAbs then none
      else some (if neg then -a else a, k)
    else some (if neg then -a else a, k)

/-- Parse a JS decimal numeric literal
`[sign] digits [. digits] [(e|E) [sign] digits]` into a scaled integer. -/
def jsParseDecimal (cs : List Char) : Option (Int × Nat) :=
  let signed : Bool × List Char :=
    match cs with
    | '+' :: r => (false, r)
    | '-' :: r => (true, r)
    | r => (false, r)
  let neg := signed.1
  let cs1 := signed.2
  let ip := cs1.takeWhile Char.isDigit
  let cs2 := cs1.dropWhile Char.isDigit
  let fracd : List Char × List Char :=
    match cs2 with
    | '.' :: r => (r.takeWhile Char.isDigit, r.dropWhile Char.isDigit)
    | r => ([], r)
  let fp := fracd.1
  let cs3 := fracd.2
  if ip.isEmpty ∧ fp.isEmpty then none
  else
    match cs3 with
    | [] => scaledOfParts neg (digitsToNat (ip ++ fp)) fp.length 0
    | c :: r =>
      if c = 'e' ∨ c = 'E' then
        let esigned : Bool × List Char :=
          match r with
          | '+' :: r1 => (false, r1)
          | '-' :: r1 => (true, r1)
          | r1 => (false, r1)
        let ed := esigned.2.takeWhile Char.isDigit
        let r2 := esigned.2.dropWhile Char.isDigit
        if ed.isEmpty ∨ ¬r2.isEmpty then none
        else
          let e : Int := if esigned.1 then -(digitsToNat ed : Int) else (digitsToNat ed : Int)
          scaledOfParts neg (digitsToNat (ip ++ fp)) fp.length e
      else none

/-- JS `Number(string)`: trimmed; empty is 0; signed `Infinity` is not finite
(`none`, which this code treats like `NaN`); `0x`/`0o`/`0b` radix literals;
otherwise the decimal grammar.  The result is the exact value `a / 10^k`. -/
def jsParseNumber (s : String) : Option (Int × Nat) :=
  let t := trimK s
  if t = "" then some (0, 0)
  else if t = "Infinity" ∨ t = "+Infinity" ∨ t = "-Infinity" then none
  else
    match t.data with
    | '0' :: 'x' :: r => (radixVal hexDigitVal 16 r).bind
        (fun v => if doubleOverflow ≤ v then none else some ((v : Int), 0))
    | '0' :: 'X' :: r => (radixVal hexDigitVal 16 r).bind
        (fun v => if doubleOverflow ≤ v then none else some ((v : Int), 0))
    | '0' :: 'o' :: r => (radixVal octDigitVal 8 r).bind
        (fun v => if doubleOverflow ≤ v then none else some ((v : Int), 0))
    | '0' :: 'O' :: r => (radixVal octDigitVal 8 r).bind
        (fun v => if doubleOverflow ≤ v then none else some ((v : Int), 0))
    | '0' :: 'b' :: r => (radixVal binDigitVal 2 r).bind
        (fun v => if doubleOverflow ≤ v then none else some ((v : Int), 0))
    | '0' :: 'B' :: r => (radixVal binDigitVal 2 r).bind
        (fun v => if doubleOverflow ≤ v then none else some ((v : Int), 0))
    | cs => jsParseDecimal cs

/-- JS `Number(v)` on a JSON value, as the exact scaled value `a / 10^k`
(`none` is `NaN` or `±Infinity`, both of which fail `Number.isFinite`):
numbers pass through, `null` is 0, booleans are 0/1, strings parse by the
numeric-literal grammar, and arrays coerce through their joined string. -/
def jsToNumber : JVal → Option (Int × Nat)
  | .num n => some (n, 0)
  | .null => some (0, 0)
  | .bool b => some (if b then 1 else 0, 0)
  | .str s => jsParseNumber s
  | .arr l => jsParseNumber (jsJoin l)

/-- `typeof v === "number"`. -/
def isNum : JVal → Bool
  | .num _ => true
  | _ => false

/-- `typeof v === "boolean"`. -/
def isBool : JVal → Bool
  | .bool _ => true
  | _ => false

/-- `v === true`. -/
def isTrueLit : JVal → Bool
  | .bool b => b
  | _ => false

/-- `Array.isArray(v) && v.length`. -/
def isArrNE : JVal → Bool
  | .arr l => !l.isEmpty
  | _ => false

/-- The guard `Array.isArray(x) && x.length` applied to a looked-up property,
yielding the array when it is non-empty. -/
def arrNE : Option JVal → Option (List JVal)
  | some (.arr l) => if l.isEmpty then none else some l
  | _ => none

/-- The validated business profile (`Payload` in `src/lib/schema.ts`), with
every field of `BusinessFormSchema`.  Optional enum/string/date fields are
`Option String` (absent is JS `undefined`); `employeesTotal` is the zod
non-negative integer. -/
structure Payload where
  businessName : String
  state : String
  city : String
  industry : String
  county : Option String
  zip : Option String
  naicsCode : Option String
  naicsTitle : Option String
  employeesTotal : Int
  hasPhysicalLocation : Bool
  publicFacingPremises : Bool
  locationType : Option String
  multiState : Bool
  hasRemoteEmployees : Bool
  sellsTaxable : Bool
  onlineOnly : Bool
  onlineMarketplace : Bool
  hasEIN : Bool
  serverTrainingPlanned : Bool
  usesRefrigerants : Bool
  usesSolvents : Bool
  offersHealth : Bool
  offers401k : Bool
  usesPEO : Bool
  otherStates : List String
  remoteEmployeeStates : List String
  salesStates : List String
  handlesFood : Bool
  sellsAlcohol : Bool
  alcoholType : Option String
  alcoholSalesContext : Option String
  onSitePrep : Bool
  seatingOnPrem : Bool
  meatDairy : Bool
  employsMinors : Bool
  minorsAges : List String
  tippedWorkers : Bool
  tippedPercentBand : Option String
  usesContractors1099 : Bool
  commercialVehicles : Bool
  hasCDLDrivers : Bool
  trucksOver10kInterstate : Bool
  usesForklifts : Bool
  hazardousMaterials : Bool
  collectsCustomerData : Bool
  handlesPHI : Bool
  childrenUnder13 : Bool
  collectsFromCA : Bool
  collectsFromOtherStates : List String
  dataVolumeBand : Option String
  sellsOrSharesData : Bool
  usesBiometrics : Bool
  revenueBand : Option String
  legalStructure : Option String
  payrollFrequency : Option String
  numLocations : Option String
  publicFacingSite : Bool
  hasWebsiteOrApp : Bool
  acceptsCardPayments : Bool
  businessStartDate : Option String
  firstEmployeeHireDate : Option String
  firstSaleDate : Option String
  firstPayrollDate : Option String
  leaseDate : Option String
deriving Repr

/-- JS truthiness of an optional string (`!!x`). -/
def optStrTruthy : Option String → Bool
  | none => false
  | some s => !(s == "")

/-- The evaluation context produced by `buildCtx`. -/
structure Ctx where
  state : String
  city : String
  statesArr : List String
  citiesArr : List String
  industry : String
  industryLc : String
  employeesTotal : Int
  requiresFood : Bool
  requiresAlcohol : Bool
  alcoholType : Option String
  alcoholSalesContext : Option String
  onSitePrep : Bool
  seatingOnPrem : Bool
  meatDairy : Bool
  employsMinors : Bool
  minorsAges : List String
  tippedWorkers : Bool
  tippedPercentBand : Option String
  usesContractors1099 : Bool
  commercialVehicles : Bool
  hasCDLDrivers : Bool
  trucksOver10kInterstate : Bool
  usesForklifts : Bool
  hazardousMaterials : Bool
  collectsCustomerData : Bool
  handlesPHI : Bool
  childrenUnder13 : Bool
  collectsFromCA : Bool
  collectsFromOtherStates : List String
  dataVolumeBand : Option String
  sellsOrSharesData : Bool
  usesBiometrics : Bool
  revenueBand : Option String
  legalStructure : Option String
  payrollFrequency : Option String
  numLocations : Option String
  publicFacingSite : Bool
  hasWebsiteOrApp : Bool
  acceptsCardPayments : Bool
deriving Repr

/-- JS `Set` insertion: append unless already present (insertion order kept,
first occurrence wins, exactly `Array.from(new Set(...))`). -/
def addState (l : List String) (s : String) : List String :=
  if s ∈ l then l else l ++ [s]

/-- Build the matching context from the submitted payload (`buildCtx`).
`employeesTotal` is an integer in the model, so the `Number.isFinite` guard of
the source is always taken. -/
def buildCtx (p : Payload) : Ctx :=
  let requiresFood := p.handlesFood || p.onSitePrep || p.meatDairy
  let requiresAlcohol := p.sellsAlcohol || optStrTruthy p.alcoholType
  let s0 := addState [] (normState p.state)
  let s1 := p.otherStates.foldl (fun acc s => addState acc (normState s)) s0
  let s2 := p.remoteEmployeeStates.foldl (fun acc s => addState acc (normState s)) s1
  let s3 := p.salesStates.foldl (fun acc s => addState acc (normState s)) s2
  let s4 := if p.collectsFromCA then addState s3 "CA" else s3
  let s5 := p.collectsFromOtherStates.foldl (fun acc s => addState acc (normState s)) s4
  { state := normState p.state
    city := normCity p.city
    statesArr := s5
    citiesArr := [normCity p.city].filter (fun s => !(s == ""))
    industry := normalizeStr p.industry
    industryLc := lc p.industry
    employeesTotal := p.employeesTotal
    requiresFood := requiresFood
    requiresAlcohol := requiresAlcohol
    alcoholType := p.alcoholType
    alcoholSalesContext := p.alcoholSalesContext
    onSitePrep := p.onSitePrep
    seatingOnPrem := p.seatingOnPrem
    meatDairy := p.meatDairy
    employsMinors := p.employsMinors
    minorsAges := p.minorsAges
    tippedWorkers := p.tippedWorkers
    tippedPercentBand := p.tippedPercentBand
    usesContractors1099 := p.usesContractors1099
    commercialVehicles := p.commercialVehicles
    hasCDLDrivers := p.hasCDLDrivers
    trucksOver10kInterstate := p.trucksOver10kInterstate
    usesForklifts := p.usesForklifts
    hazardousMaterials := p.hazardousMaterials
    collectsCustomerData := p.collectsCustomerData
    handlesPHI := p.handlesPHI
    childrenUnder13 := p.childrenUnder13
    collectsFromCA := p.collectsFromCA
    collectsFromOtherStates := p.collectsFromOtherStates.map normState
    dataVolumeBand := p.dataVolumeBand
    sellsOrSharesData := p.sellsOrSharesData
    usesBiometrics := p.usesBiometrics
    revenueBand := p.revenueBand
    legalStructure := p.legalStructure
    payrollFrequency := p.payrollFrequency
    numLocations := p.numLocations
    publicFacingSite := p.publicFacingSite
    hasWebsiteOrApp := p.hasWebsiteOrApp
    acceptsCardPayments := p.acceptsCardPayments }

/-- Outcome of one condition-key check inside `evalConditions`: not applicable
(guard not taken), pass with a reason, fail (return `{ok:false,reasons:[]}`),
or a thrown exception. -/
inductive CheckResult where
  | skip : CheckResult
  | pass : String → CheckResult
  | fail : CheckResult
  | err : CheckResult
deriving Repr, DecidableEq

/-- `employeesMin` / `employeesMax`: numeric guard, a bound test, a reason
built from the context and the bound. -/
def chkNumC (bad : Ctx → Int → Bool) (reason : Ctx → Int → String) :
    Option JVal → Ctx → CheckResult := fun ov ctx =>
  match ov with
  | some (.num m) => if bad ctx m then .fail else .pass (reason ctx m)
  | _ => .skip

/-- `conditions[key] === true` gate (`requiresFood` / `requiresAlcohol`). -/
def chkTrueC (proj : Ctx → Bool) (reason : String) :
    Option JVal → Ctx → CheckResult := fun ov ctx =>
  match ov with
  | some (.bool true) => if proj ctx then .pass reason else .fail
  | _ => .skip

/-- Exact boolean equality check (`typeof cond === "boolean"` guard). -/
def chkBoolC (proj : Ctx → Bool) (reason : Bool → String) :
    Option JVal → Ctx → CheckResult := fun ov ctx =>
  match ov with
  | some (.bool b) => if proj ctx == b then .pass (reason b) else .fail
  | _ => .skip

/-- Allow-list over an optional context string; a missing or empty context
value fails (`!ctx.field || !array.includes(ctx.field)`). -/
def chkStrAllowC (proj : Ctx → Option String) (reason : String → String) :
    Option JVal → Ctx → CheckResult := fun ov ctx =>
  match arrNE ov with
  | none => .skip
  | some arr =>
    match proj ctx with
    | none => .fail
    | some t => if t = "" then .fail
                else if strIncludes arr t then .pass (reason t) else .fail

/-- Allow-list where an absent context value is coerced to `""`
(`cond.includes(ctx[val] ?? "")`, the structure/payroll loop). -/
def chkStrAllowDC (proj : Ctx → Option String) (reason : String) :
    Option JVal → Ctx → CheckResult := fun ov ctx =>
  match arrNE ov with
  | none => .skip
  | some arr =>
    if strIncludes arr ((proj ctx).getD "") then .pass reason else .fail

/-- `industry`: lowercase the allow-list (throws on non-string elements) and
test membership of the lowercased context industry. -/
def chkIndustryC : Option JVal → Ctx → CheckResult := fun ov ctx =>
  match arrNE ov with
  | none => .skip
  | some arr =>
    match arr.mapM jsLc with
    | none => .err
    | some strs =>
      if strs.contains ctx.industryLc
      then .pass ("Industry matches (" ++ ctx.industry ++ ").")
      else .fail

/-- `cities`: normalize the allow-list (throws on non-string elements) and
intersect with the context city list. -/
def chkCitiesC : Option JVal → Ctx → CheckResult := fun ov ctx =>
  match arrNE ov with
  | none => .skip
  | some arr =>
    match arr.mapM jsNormCity with
    | none => .err
    | some allowed =>
      if hasAny allowed ctx.citiesArr then .pass "City explicitly included."
      else .fail

/-- `minorsAges`: any-intersection between the raw allow-list and the context
age-band strings. -/
def chkMinorsC : Option JVal → Ctx → CheckResult := fun ov ctx =>
  match arrNE ov with
  | none => .skip
  | some arr =>
    if hasAnyJ arr ctx.minorsAges then .pass "Minor age range matches."
    else .fail

/-- `collectsFromOtherStates`: normalize the allow-list (throws on non-string
elements) and test whether some context state is wanted. -/
def chkCFOSC : Option JVal → Ctx → CheckResult := fun ov ctx =>
  match arrNE ov with
  | none => .skip
  | some arr =>
    match arr.mapM jsNormState with
    | none => .err
    | some want =>
      if ctx.collectsFromOtherStates.any (fun s => want.contains s)
      then .pass "Collects data from specified states."
      else .fail

/-- The checks of `evalConditions`, in source order.  Each source check reads
exactly one condition key; an entry pairs that key with the handler applied to
the looked-up value. -/
def evalChecks : List (String × (Option JVal → Ctx → CheckResult)) :=
  [ ("employeesMin",
      chkNumC (fun ctx m => ctx.employeesTotal < m)
        (fun ctx m => "Meets minimum employees threshold (have " ++
          toString ctx.employeesTotal ++ " ≥ " ++ toString m ++ ")."))
  , ("employeesMax",
      chkNumC (fun ctx m => ctx.employeesTotal > m)
        (fun ctx m => "Within maximum employees threshold (have " ++
          toString ctx.employeesTotal ++ " ≤ " ++ toString m ++ ")."))
  , ("industry", chkIndustryC)
  , ("requiresFood", chkTrueC (fun ctx => ctx.requiresFood) "Handles food / on-site prep.")
  , ("requiresAlcohol", chkTrueC (fun ctx => ctx.requiresAlcohol) "Sells alcohol.")
  , ("alcoholType",
      chkStrAllowC (fun ctx => ctx.alcoholType)
        (fun t => "Alcohol type allowed (" ++ t ++ ")."))
  , ("alcoholSalesContext",
      chkStrAllowC (fun ctx => ctx.alcoholSalesContext)
        (fun t => "Alcohol sales context matches (" ++ t ++ ")."))
  , ("cities", chkCitiesC)
  , ("employsMinors",
      chkBoolC (fun ctx => ctx.employsMinors)
        (fun b => if b then "Employs minors." else "Does not employ minors."))
  , ("minorsAges", chkMinorsC)
  , ("tippedWorkers",
      chkBoolC (fun ctx => ctx.tippedWorkers)
        (fun b => if b then "Has tipped workers." else "No tipped workers."))
  , ("tippedPercentBand",
      chkStrAllowC (fun ctx => ctx.tippedPercentBand)
        (fun t => "Tipped share matches (" ++ t ++ ")."))
  , ("commercialVehicles",
      chkBoolC (fun ctx => ctx.commercialVehicles)
        (fun b => (if b then "Requires" else "No") ++ " commercialVehicles."))
  , ("hasCDLDrivers",
      chkBoolC (fun ctx => ctx.hasCDLDrivers)
        (fun b => (if b then "Requires" else "No") ++ " hasCDLDrivers."))
  , ("trucksOver10kInterstate",
      chkBoolC (fun ctx => ctx.trucksOver10kInterstate)
        (fun b => (if b then "Requires" else "No") ++ " trucksOver10kInterstate."))
  , ("usesForklifts",
      chkBoolC (fun ctx => ctx.usesForklifts)
        (fun b => (if b then "Requires" else "No") ++ " usesForklifts."))
  , ("hazardousMaterials",
      chkBoolC (fun ctx => ctx.hazardousMaterials)
        (fun b => (if b then "Requires" else "No") ++ " hazardousMaterials."))
  , ("collectsCustomerData",
      chkBoolC (fun ctx => ctx.collectsCustomerData)
        (fun b => (if b then "Has" else "No") ++ " collectsCustomerData."))
  , ("handlesPHI",
      chkBoolC (fun ctx => ctx.handlesPHI)
        (fun b => (if b then "Has" else "No") ++ " handlesPHI."))
  , ("childrenUnder13",
      chkBoolC (fun ctx => ctx.childrenUnder13)
        (fun b => (if b then "Has" else "No") ++ " childrenUnder13."))
  , ("collectsFromCA",
      chkBoolC (fun ctx => ctx.collectsFromCA)
        (fun b => (if b then "Has" else "No") ++ " collectsFromCA."))
  , ("sellsOrSharesData",
      chkBoolC (fun ctx => ctx.sellsOrSharesData)
        (fun b => (if b then "Has" else "No") ++ " sellsOrSharesData."))
  , ("usesBiometrics",
      chkBoolC (fun ctx => ctx.usesBiometrics)
        (fun b => (if b then "Has" else "No") ++ " usesBiometrics."))
  , ("collectsFromOtherStates", chkCFOSC)
  , ("dataVolumeBand",
      chkStrAllowC (fun ctx => ctx.dataVolumeBand)
        (fun t => "Data volume band matches (" ++ t ++ ")."))
  , ("revenueBand",
      chkStrAllowDC (fun ctx => ctx.revenueBand) "revenueBand matches.")
  , ("legalStructure",
      chkStrAllowDC (fun ctx => ctx.legalStructure) "legalStructure matches.")
  , ("payrollFrequency",
      chkStrAllowDC (fun ctx => ctx.payrollFrequency) "payrollFrequency matches.")
  , ("numLocations",
      chkStrAllowDC (fun ctx => ctx.numLocations) "numLocations matches.")
  , ("onSitePrep",
      chkBoolC (fun ctx => ctx.onSitePrep)
        (fun b => (if b then "Has" else "No") ++ " onSitePrep."))
  , ("seatingOnPrem",
      chkBoolC (fun ctx => ctx.seatingOnPrem)
        (fun b => (if b then "Has" else "No") ++ " seatingOnPrem."))
  , ("meatDairy",
      chkBoolC (fun ctx => ctx.meatDairy)
        (fun b => (if b then "Has" else "No") ++ " meatDairy."))
  , ("publicFacingSite",
      chkBoolC (fun ctx => ctx.publicFacingSite)
        (fun b => (if b then "Has" else "No") ++ " publicFacingSite."))
  , ("hasWebsiteOrApp",
      chkBoolC (fun ctx => ctx.hasWebsiteOrApp)
        (fun b => (if b then "Has" else "No") ++ " hasWebsiteOrApp."))
  , ("acceptsCardPayments",
      chkBoolC (fun ctx => ctx.acceptsCardPayments)
        (fun b => (if b then "Has" else "No") ++ " acceptsCardPayments."))
  ]

/-- The `{ ok, reasons }` result of `evalConditions`. -/
structure EvalResult where
  ok : Bool
  reasons : List String
deriving Repr, DecidableEq

/-- Run the condition checks in order, accumulating reasons; the first failing
check returns `{ok:false, reasons:[]}` immediately, a thrown exception
(`none`) aborts, and a fully passed run wraps the accumulated reasons
(defaulting to the single generic reason when none were pushed). -/
def runChecks : List (String × (Option JVal → Ctx → CheckResult)) → Cond → Ctx →
    List String → Option EvalResult
  | [], _, _, acc =>
      some { ok := true,
             reasons := if acc.isEmpty then ["Meets rule conditions."] else acc }
  | (k, h) :: rest, c, ctx, acc =>
    match h (getKey c k) ctx with
    | .skip => runChecks rest c ctx acc
    | .pass r => runChecks rest c ctx (acc ++ [r])
    | .fail => some { ok := false, reasons := [] }
    | .err => none

/-- `evalConditions(conditions, ctx)`: `none`/`{}` conditions match generally;
otherwise the checks run in sequence.  The outer `Option` is a thrown
exception (never `null`: the source returns an object on every path). -/
def evalConditions (conditions : Option Cond) (ctx : Ctx) : Option EvalResult :=
  match conditions with
  | none => some { ok := true, reasons := ["Applies generally (no extra conditions)."] }
  | some [] => some { ok := true, reasons := ["Applies generally (no extra conditions)."] }
  | some c => runChecks evalChecks c ctx []

/-- Gregorian leap year. -/
def isLeap (y : Int) : Bool := (y % 4 == 0 && y % 100 != 0) || y % 400 == 0

/-- Days in a month (month 1-12; 0 for anything else). -/
def daysInMonth (y : Int) (m : Nat) : Nat :=
  match m with
  | 1 => 31 | 2 => if isLeap y then 29 else 28 | 3 => 31 | 4 => 30
  | 5 => 31 | 6 => 30 | 7 => 31 | 8 => 31
  | 9 => 30 | 10 => 31 | 11 => 30 | 12 => 31
  | _ => 0

/-- Digit value of a character. -/
def digitVal (c : Char) : Nat := c.toNat - '0'.toNat

/-- Parse a `"YYYY-MM-DD"` string into a calendar-valid (year, month, day)
triple.  This models `new Date(base + "T00:00:00Z")`: the ISO parse accepts
exactly a four-digit year, two-digit month 01-12 and two-digit day within the
month, and produces an Invalid Date (`none` here) otherwise. -/
def parseYMD (s : String) : Option (Int × Int × Int) :=
  match s.toList with
  | [y1, y2, y3, y4, '-', m1, m2, '-', d1, d2] =>
    if y1.isDigit && y2.isDigit && y3.isDigit && y4.isDigit &&
       m1.isDigit && m2.isDigit && d1.isDigit && d2.isDigit then
      let y : Nat := digitVal y1 * 1000 + digitVal y2 * 100 + digitVal y3 * 10 + digitVal y4
      let m : Nat := digitVal m1 * 10 + digitVal m2
      let d : Nat := digitVal d1 * 10 + digitVal d2
      if 1 ≤ m && m ≤ 12 && 1 ≤ d && d ≤ daysInMonth (Int.ofNat y) m then
        some (Int.ofNat y, Int.ofNat m, Int.ofNat d)
      else none
    else none
  | _ => none

/-- Days since the Unix epoch of a civil date (proleptic Gregorian, the
arithmetic a JS `Date` performs internally). -/
def daysFromCivil (y m d : Int) : Int :=
  let y' := y - (if m ≤ 2 then 1 else 0)
  let era := Int.fdiv y' 400
  let yoe := y' - era * 400
  let mp := m + (if m > 2 then -3 else 9)
  let doy := Int.fdiv (153 * mp + 2) 5 + d - 1
  let doe := yoe * 365 + Int.fdiv yoe 4 - Int.fdiv yoe 100 + doy
  era * 146097 + doe - 719468

/-- Civil date of a days-since-epoch count (inverse direction of the same
calendar arithmetic). -/
def civilFromDays (z0 : Int) : Int × Int × Int :=
  let z := z0 + 719468
  let era := Int.fdiv z 146097
  let doe := z - era * 146097
  let yoe := Int.fdiv (doe - Int.fdiv doe 1460 + Int.fdiv doe 36524 - Int.fdiv doe 146096) 365
  let y := yoe + era * 400
  let doy := doe - (365 * yoe + Int.fdiv yoe 4 - Int.fdiv yoe 100)
  let mp := Int.fdiv (5 * doy + 2) 153
  let d := doy - Int.fdiv (153 * mp + 2) 5 + 1
  let m := mp + (if mp < 10 then 3 else -9)
  (y + (if m ≤ 2 then 1 else 0), m, d)

/-- Zero-pad the decimal representation of a natural to width `w`. -/
def padN (w : Nat) (n : Nat) : String :=
  let s := toString n
  String.mk (List.replicate (w - s.length) '0') ++ s

/-- `d.toISOString().slice(0, 10)`: years 0-9999 print as `YYYY-MM-DD`;
out-of-range years use the expanded `±YYYYYY` form, of which the slice keeps
the first ten characters. -/
def isoSlice10 : Int × Int × Int → String := fun (y, m, d) =>
  if 0 ≤ y ∧ y ≤ 9999 then
    padN 4 y.toNat ++ "-" ++ padN 2 m.toNat ++ "-" ++ padN 2 d.toNat
  else
    takeK ((if y < 0 then "-" else "+") ++ padN 6 y.natAbs ++ "-" ++
      padN 2 m.toNat ++ "-" ++ padN 2 d.toNat) 10

/-- An optional string field as a JS property value. -/
def strField (o : Option String) : Option JVal := o.map JVal.str

/-- `(payload as any)[key]`: the JS value of every property of the validated
profile; any other name is `undefined` (`none`). -/
def payloadField (p : Payload) : String → Option JVal
  | "businessName" => some (JVal.str p.businessName)
  | "state" => some (JVal.str p.state)
  | "city" => some (JVal.str p.city)
  | "industry" => some (JVal.str p.industry)
  | "county" => strField p.county
  | "zip" => strField p.zip
  | "naicsCode" => strField p.naicsCode
  | "naicsTitle" => strField p.naicsTitle
  | "employeesTotal" => some (JVal.num p.employeesTotal)
  | "numLocations" => strField p.numLocations
  | "businessStartDate" => strField p.businessStartDate
  | "firstEmployeeHireDate" => strField p.firstEmployeeHireDate
  | "hasPhysicalLocation" => some (JVal.bool p.hasPhysicalLocation)
  | "publicFacingPremises" => some (JVal.bool p.publicFacingPremises)
  | "locationType" => strField p.locationType
  | "multiState" => some (JVal.bool p.multiState)
  | "otherStates" => some (JVal.arr (p.otherStates.map JVal.str))
  | "hasRemoteEmployees" => some (JVal.bool p.hasRemoteEmployees)
  | "remoteEmployeeStates" => some (JVal.arr (p.remoteEmployeeStates.map JVal.str))
  | "handlesFood" => some (JVal.bool p.handlesFood)
  | "sellsAlcohol" => some (JVal.bool p.sellsAlcohol)
  | "hazardousMaterials" => some (JVal.bool p.hazardousMaterials)
  | "commercialVehicles" => some (JVal.bool p.commercialVehicles)
  | "hasCDLDrivers" => some (JVal.bool p.hasCDLDrivers)
  | "acceptsCardPayments" => some (JVal.bool p.acceptsCardPayments)
  | "collectsCustomerData" => some (JVal.bool p.collectsCustomerData)
  | "tippedWorkers" => some (JVal.bool p.tippedWorkers)
  | "tippedPercentBand" => strField p.tippedPercentBand
  | "employsMinors" => some (JVal.bool p.employsMinors)
  | "minorsAges" => some (JVal.arr (p.minorsAges.map JVal.str))
  | "usesContractors1099" => some (JVal.bool p.usesContractors1099)
  | "sellsTaxable" => some (JVal.bool p.sellsTaxable)
  | "salesStates" => some (JVal.arr (p.salesStates.map JVal.str))
  | "onlineOnly" => some (JVal.bool p.onlineOnly)
  | "onlineMarketplace" => some (JVal.bool p.onlineMarketplace)
  | "revenueBand" => strField p.revenueBand
  | "legalStructure" => strField p.legalStructure
  | "hasEIN" => some (JVal.bool p.hasEIN)
  | "onSitePrep" => some (JVal.bool p.onSitePrep)
  | "seatingOnPrem" => some (JVal.bool p.seatingOnPrem)
  | "meatDairy" => some (JVal.bool p.meatDairy)
  | "alcoholType" => strField p.alcoholType
  | "alcoholSalesContext" => strField p.alcoholSalesContext
  | "serverTrainingPlanned" => some (JVal.bool p.serverTrainingPlanned)
  | "handlesPHI" => some (JVal.bool p.handlesPHI)
  | "childrenUnder13" => some (JVal.bool p.childrenUnder13)
  | "collectsFromCA" => some (JVal.bool p.collectsFromCA)
  | "collectsFromOtherStates" => some (JVal.arr (p.collectsFromOtherStates.map JVal.str))
  | "dataVolumeBand" => strField p.dataVolumeBand
  | "sellsOrSharesData" => some (JVal.bool p.sellsOrSharesData)
  | "usesBiometrics" => some (JVal.bool p.usesBiometrics)
  | "usesRefrigerants" => some (JVal.bool p.usesRefrigerants)
  | "usesSolvents" => some (JVal.bool p.usesSolvents)
  | "trucksOver10kInterstate" => some (JVal.bool p.trucksOver10kInterstate)
  | "usesForklifts" => some (JVal.bool p.usesForklifts)
  | "publicFacingSite" => some (JVal.bool p.publicFacingSite)
  | "hasWebsiteOrApp" => some (JVal.bool p.hasWebsiteOrApp)
  | "payrollFrequency" => strField p.payrollFrequency
  | "offersHealth" => some (JVal.bool p.offersHealth)
  | "offers401k" => some (JVal.bool p.offers401k)
  | "usesPEO" => some (JVal.bool p.usesPEO)
  | "firstSaleDate" => strField p.firstSaleDate
  | "firstPayrollDate" => strField p.firstPayrollDate
  | "leaseDate" => strField p.leaseDate
  | _ => none

/-- `Number(conditions?.dueInDays ?? 0)` as an exact scaled value (`none` is
`NaN`/`±Infinity`). -/
def dueInDaysNum (cond : Cond) : Option (Int × Nat) :=
  match getKey cond "dueInDays" with
  | none => some (0, 0)
  | some v => jsToNumber v

/-- Day count after `if (Number.isFinite(dueInDays) && dueInDays !== 0)
d.setUTCDate(d.getUTCDate() + dueInDays)`: `setUTCDate(x)` rebuilds the date
from the current year and month with day-of-month `ToIntegerOrInfinity(x)`
(truncation toward zero), normalizing overflow through the calendar.  The
day-of-month sum `d + a/10^k` is truncated exactly; the IEEE rounding of the
float sum, observable only for adversarial fractional offsets no claim
exercises, is not modelled. -/
def shiftedDays (y m d : Int) (n? : Option (Int × Nat)) : Int :=
  match n? with
  | some (a, k) =>
      if a = 0 then daysFromCivil y m d
      else daysFromCivil y m 1 + (Int.tdiv (d * 10 ^ k + a) (10 ^ k) - 1)
  | none => daysFromCivil y m d

/-- JS `Date`s are valid within ±8.64e15 ms of the epoch, i.e. ±1e8 days. -/
def jsDateRange : Int := 100000000

/-- `computeDueDate(conditions, payload)`.  `.ok none` is the source's
`null`; `.error ()` models the `RangeError` that `toISOString` throws on an
Invalid Date (unparsable or out-of-range time value).  The property read
`(payload as any)[dueFrom]` coerces the key with `ToPropertyKey` (JS
`String`), and `base + "T00:00:00Z"` coerces the value the same way. -/
def computeDueDate (cond : Cond) (p : Payload) : Except Unit (Option String) :=
  match getKey cond "dueFrom" with
  | none => .ok none
  | some dv =>
    if jvalFalsy dv then .ok none
    else
      match payloadField p (jsToString dv) with
      | none => .ok none
      | some bv =>
        if jvalFalsy bv then .ok none
        else
          match parseYMD (jsToString bv) with
          | none => .error ()
          | some (y, m, d) =>
            let days := shiftedDays y m d (dueInDaysNum cond)
            if days < -jsDateRange ∨ jsDateRange < days then .error ()
            else .ok (some (isoSlice10 (civilFromDays days)))

/-- Rule level enumeration (`level IN ('federal','state','city')`). -/
inductive Level where
  | federal : Level
  | state : Level
  | city : Level
deriving Repr, DecidableEq

/-- A candidate row as selected from the `rules` table. -/
structure RuleRow where
  id : String
  title : String
  summary : Option String
  source : Option String
  level : Level
  jurisdiction_state : Option String
  jurisdiction_city : Option String
  conditions : Option Cond

/-- The public match-result shape produced by `toPublic`. -/
structure PublicRule where
  id : String
  title : String
  summary : String
  source : String
  level : Level
  jurisdiction_state : Option String
  jurisdiction_city : Option String
  appliesBecause : List String
  action : JVal
  owner : JVal
  effort : JVal
  dueDate : Option String
deriving Repr

/-- `v ?? ""`: JS nullish coalescing maps both `undefined` and `null` to the
default. -/
def jsNullish (o : Option JVal) : JVal :=
  match o with
  | none => JVal.str ""
  | some JVal.null => JVal.str ""
  | some v => v

/-- `toPublic(r, reasons, payload)`: the due-date computation can throw, which
propagates (`.error`). -/
def toPublic (r : RuleRow) (reasons : List String) (p : Payload) :
    Except Unit PublicRule :=
  let c := r.conditions.getD []
  match computeDueDate c p with
  | .error e => .error e
  | .ok dd =>
    .ok { id := r.id
          title := r.title
          summary := r.summary.getD ""
          source := r.source.getD ""
          level := r.level
          jurisdiction_state := r.jurisdiction_state
          jurisdiction_city := r.jurisdiction_city
          appliesBecause := reasons
          action := jsNullish (getKey c "action")
          owner := jsNullish (getKey c "owner")
          effort := jsNullish (getKey c "effort")
          dueDate := dd }

/-- `matched.map(m => toPublic(...))`: convert each matched pair, left to
right; a thrown exception (from the due-date computation) propagates. -/
def toPublicAll : List (RuleRow × List String) → Payload → Except Unit (List PublicRule)
  | [], _ => .ok []
  | m :: ms, p =>
    match toPublic m.1 m.2 p with
    | .error e => .error e
    | .ok q =>
      match toPublicAll ms p with
      | .error e => .error e
      | .ok qs => .ok (q :: qs)

/-- The evaluation loop of `matchRules`: collect `{row, reasons}` for each
candidate whose conditions evaluate `ok`; an exception aborts the request. -/
def collectMatched : List RuleRow → Ctx → Except Unit (List (RuleRow × List String))
  | [], _ => .ok []
  | r :: rs, ctx =>
    match evalConditions r.conditions ctx with
    | none => .error ()
    | some res =>
      match collectMatched rs ctx with
      | .error e => .error e
      | .ok rest => .ok (if res.ok then (r, res.reasons) :: rest else rest)

/-- Grouped output of `matchRules` (the `industry` bucket is reserved). -/
structure Grouped where
  federal : List PublicRule
  state : List PublicRule
  city : List PublicRule
  industry : List PublicRule
deriving Repr

/-- `{ grouped, count }` returned by `matchRules`. -/
structure MatchOutput where
  grouped : Grouped
  count : Nat
deriving Repr

/-- Whether a candidate row matches (its conditions evaluate without throwing
and with `ok = true`). -/
def isMatched (r : RuleRow) (ctx : Ctx) : Bool :=
  match evalConditions r.conditions ctx with
  | some res => res.ok
  | none => false

/-- The pure body of `matchRules(payload)`: the candidate rows retrieved by
the jurisdiction query (federal first, then state, then city, title-ascending
within each level) are evaluated and partitioned by level.  The SQL query and
the 60-second advisory cache are I/O and are modelled by passing `rows` in. -/
def matchRules (rows : List RuleRow) (p : Payload) : Except Unit MatchOutput :=
  let ctx := buildCtx p
  match collectMatched rows ctx with
  | .error e => .error e
  | .ok matched =>
    match toPublicAll (matched.filter fun m => m.1.level == Level.federal) p with
    | .error e => .error e
    | .ok fed =>
      match toPublicAll (matched.filter fun m => m.1.level == Level.state) p with
      | .error e => .error e
      | .ok st =>
        match toPublicAll (matched.filter fun m => m.1.level == Level.city) p with
        | .error e => .error e
        | .ok ci =>
          let grouped : Grouped :=
            { federal := fed, state := st, city := ci, industry := [] }
          .ok { grouped := grouped,
                count := grouped.federal.length + grouped.state.length +
                  grouped.city.length + grouped.industry.length }

/-- A baseline validated payload (the concrete inputs below adjust it). -/
def defaultPayload : Payload :=
  { businessName := "Acme LLC",
    state := "NY", city := "", industry := "Restaurant", employeesTotal := 0,
    county := none, zip := none, naicsCode := none, naicsTitle := none,
    hasPhysicalLocation := false, publicFacingPremises := false,
    locationType := none, multiState := false, hasRemoteEmployees := false,
    sellsTaxable := false, onlineOnly := false, onlineMarketplace := false,
    hasEIN := false, serverTrainingPlanned := false, usesRefrigerants := false,
    usesSolvents := false, offersHealth := false, offers401k := false,
    usesPEO := false,
    otherStates := [], remoteEmployeeStates := [], salesStates := [],
    handlesFood := false, sellsAlcohol := false, alcoholType := none,
    alcoholSalesContext := none, onSitePrep := false, seatingOnPrem := false,
    meatDairy := false, employsMinors := false, minorsAges := [],
    tippedWorkers := false, tippedPercentBand := none,
    usesContractors1099 := false, commercialVehicles := false,
    hasCDLDrivers := false, trucksOver10kInterstate := false,
    usesForklifts := false, hazardousMaterials := false,
    collectsCustomerData := false, handlesPHI := false,
    childrenUnder13 := false, collectsFromCA := false,
    collectsFromOtherStates := [], dataVolumeBand := none,
    sellsOrSharesData := false, usesBiometrics := false, revenueBand := none,
    legalStructure := none, payrollFrequency := none, numLocations := none,
    publicFacingSite := false, hasWebsiteOrApp := false,
    acceptsCardPayments := false, businessStartDate := none,
    firstEmployeeHireDate := none, firstSaleDate := none,
    firstPayrollDate := none, leaseDate := none }

/-- The spec's scenario profile: a three-employee Los Angeles business selling
alcohol off-premise. -/
def scenarioPayload : Payload :=
  { defaultPayload with
    state := "CA", city := "Los Angeles",
    sellsAlcohol := true, alcoholSalesContext := some "off-premise",
    employeesTotal := 3 }

/-- Every check handler skips on an absent key. -/
theorem evalChecks_none_skip (ctx : Ctx) :
    ∀ e ∈ evalChecks, e.2 none ctx = CheckResult.skip := by
  intro e he
  simp only [evalChecks, List.mem_cons, List.not_mem_nil, or_false] at he
  rcases he with rfl|rfl|rfl|rfl|rfl|rfl|rfl|rfl|rfl|rfl|rfl|rfl|rfl|rfl|rfl|rfl|rfl|rfl|rfl|rfl|rfl|rfl|rfl|rfl|rfl|rfl|rfl|rfl|rfl|rfl|rfl|rfl|rfl|rfl|rfl <;> rfl

/-- A failed run carries no reasons. -/
theorem runChecks_false_reasons (cs : List (String × (Option JVal → Ctx → CheckResult)))
    (c : Cond) (ctx : Ctx) :
    ∀ acc r, runChecks cs c ctx acc = some r → r.ok = false → r.reasons = [] := by
  induction cs with
  | nil =>
    intro acc r h hok
    simp only [runChecks] at h
    cases h
    simp at hok
  | cons e rest ih =>
    intro acc r h hok
    obtain ⟨k, f⟩ := e
    simp only [runChecks] at h
    cases hres : f (getKey c k) ctx <;> rw [hres] at h
    · exact ih acc r h hok
    · exact ih _ r h hok
    · cases h; rfl
    · cases h

/-- A fully passed run carries at least one reason. -/
theorem runChecks_true_reasons_ne (cs : List (String × (Option JVal → Ctx → CheckResult)))
    (c : Cond) (ctx : Ctx) :
    ∀ acc r, runChecks cs c ctx acc = some r → r.ok = true → r.reasons ≠ [] := by
  induction cs with
  | nil =>
    intro acc r h _
    simp only [runChecks] at h
    cases h
    by_cases hacc : acc.isEmpty
    · simp [hacc]
    · simp only [hacc, if_false]
      simpa [List.isEmpty_iff] using hacc
  | cons e rest ih =>
    intro acc r h hok
    obtain ⟨k, f⟩ := e
    simp only [runChecks] at h
    cases hres : f (getKey c k) ctx <;> rw [hres] at h
    · exact ih acc r h hok
    · exact ih _ r h hok
    · cases h; simp at hok
    · cases h

/-- If some check in the list fails on this document and context, the run
(when it returns at all) rejects with no reasons. -/
theorem runChecks_mem_fail (cs : List (String × (Option JVal → Ctx → CheckResult)))
    (c : Cond) (ctx : Ctx) (e : String × (Option JVal → Ctx → CheckResult))
    (he : e ∈ cs) (hfail : e.2 (getKey c e.1) ctx = CheckResult.fail) :
    ∀ acc r, runChecks cs c ctx acc = some r → r.ok = false ∧ r.reasons = [] := by
  induction cs with
  | nil => cases he
  | cons e' rest ih =>
    intro acc r h
    obtain ⟨k, f⟩ := e'
    simp only [runChecks] at h
    rcases List.mem_cons.mp he with rfl | hmem
    · change f (getKey c k) ctx = CheckResult.fail at hfail
      rw [hfail] at h
      cases h
      exact ⟨rfl, rfl⟩
    · cases hres : f (getKey c k) ctx <;> rw [hres] at h
      · exact ih hmem acc r h
      · exact ih hmem _ r h
      · cases h; exact ⟨rfl, rfl⟩
      · cases h

/-- A run that succeeds with `ok = true` had no failing and no throwing
check. -/
theorem runChecks_true_no_fail (cs : List (String × (Option JVal → Ctx → CheckResult)))
    (c : Cond) (ctx : Ctx) :
    ∀ acc r, runChecks cs c ctx acc = some r → r.ok = true →
    ∀ e ∈ cs, e.2 (getKey c e.1) ctx ≠ CheckResult.fail ∧
      e.2 (getKey c e.1) ctx ≠ CheckResult.err := by
  induction cs with
  | nil => intro acc r _ _ e he; cases he
  | cons e' rest ih =>
    intro acc r h hok e he
    obtain ⟨k, f⟩ := e'
    simp only [runChecks] at h
    rcases List.mem_cons.mp he with rfl | hmem
    · cases hres : f (getKey c k) ctx <;> rw [hres] at h
      · simp [hres]
      · simp [hres]
      · cases h; simp at hok
      · cases h
    · cases hres : f (getKey c k) ctx <;> rw [hres] at h
      · exact ih acc r h hok e hmem
      · exact ih _ r h hok e hmem
      · cases h; simp at hok
      · cases h

/-- Runs agree when every check agrees on the two inputs. -/
theorem runChecks_congr (cs : List (String × (Option JVal → Ctx → CheckResult)))
    (c₁ c₂ : Cond) (ctx₁ ctx₂ : Ctx)
    (hagree : ∀ e ∈ cs, e.2 (getKey c₁ e.1) ctx₁ = e.2 (getKey c₂ e.1) ctx₂) :
    ∀ acc, runChecks cs c₁ ctx₁ acc = runChecks cs c₂ ctx₂ acc := by
  induction cs with
  | nil => intro acc; rfl
  | cons e rest ih =>
    intro acc
    obtain ⟨k, f⟩ := e
    have hhead := hagree ⟨k, f⟩ (List.mem_cons_self _ _)
    change f (getKey c₁ k) ctx₁ = f (getKey c₂ k) ctx₂ at hhead
    have htail : ∀ e ∈ rest, e.2 (getKey c₁ e.1) ctx₁ = e.2 (getKey c₂ e.1) ctx₂ :=
      fun e he => hagree e (List.mem_cons_of_mem _ he)
    simp only [runChecks]
    rw [hhead]
    cases f (getKey c₂ k) ctx₂
    · exact ih htail acc
    · exact ih htail _
    · rfl
    · rfl

/-- A condition document whose `requiresAlcohol` key passes (pushing a
reason) and whose later `cities` key fails. -/
def passThenFailCond : Cond :=
  [("requiresAlcohol", JVal.bool true), ("cities", JVal.arr [JVal.str "Columbus"])]

/-- C2: for every condition document and context, if any one recognized
condition key present in the document fails its check, `evalConditions`
returns `matched = false` with an empty reason list (reasons accumulated
before the failing key are discarded); and only fully-matched rules carry a
non-empty reason list. -/
theorem evalConditions_short_circuit (c : Cond) (ctx : Ctx) (r : EvalResult)
    (h : evalConditions (some c) ctx = some r) :
    ((∃ e ∈ evalChecks, e.2 (getKey c e.1) ctx = CheckResult.fail) →
      r.ok = false ∧ r.reasons = []) ∧
    (r.ok = false → r.reasons = []) ∧
    (r.ok = true → r.reasons ≠ []) := by
  cases c with
  | nil =>
    simp only [evalConditions] at h
    cases h
    refine ⟨?_, ?_, ?_⟩
    · rintro ⟨e, he, hfail⟩
      have hskip := evalChecks_none_skip ctx e he
      rw [show getKey [] e.1 = none from rfl, hskip] at hfail
      cases hfail
    · intro h'; cases h'
    · intro _; simp
  | cons p rest =>
    refine ⟨?_, ?_, ?_⟩
    · rintro ⟨e, he, hfail⟩
      exact runChecks_mem_fail evalChecks (p :: rest) ctx e he hfail [] r h
    · exact runChecks_false_reasons evalChecks (p :: rest) ctx [] r h
    · exact runChecks_true_reasons_ne evalChecks (p :: rest) ctx [] r h

/-- Witness for C2 at a concrete input: against the scenario profile, a rule
whose `requiresAlcohol` gate passes but whose `cities` allow-list fails is
rejected with no reasons. -/
theorem evalConditions_short_circuit_witness :
    ({ ok := false, reasons := [] } : EvalResult).ok = false ∧
    ({ ok := false, reasons := [] } : EvalResult).reasons = [] :=
  (evalConditions_short_circuit passThenFailCond (buildCtx scenarioPayload)
      { ok := false, reasons := [] } (by decide)).1
    ⟨("cities", chkCitiesC), by simp [evalChecks], by decide⟩

/-- C3: for every evaluation context, a rule whose condition document is
absent (`null`) or empty matches unconditionally, with exactly the one
generic reason. -/
theorem evalConditions_empty_unconditional (ctx : Ctx) :
    evalConditions none ctx =
      some { ok := true, reasons := ["Applies generally (no extra conditions)."] } ∧
    evalConditions (some []) ctx =
      some { ok := true, reasons := ["Applies generally (no extra conditions)."] } :=
  ⟨rfl, rfl⟩

/-- Membership after one `Set`-style insertion. -/
theorem mem_addState (l : List String) (s a : String) :
    a ∈ addState l s ↔ a ∈ l ∨ a = s := by
  unfold addState
  by_cases h : s ∈ l
  · simp only [if_pos h]
    constructor
    · exact Or.inl
    · rintro (h' | rfl)
      · exact h'
      · exact h
  · simp [if_neg h]

/-- `Set`-style insertion preserves distinctness. -/
theorem nodup_addState (l : List String) (s : String) (h : l.Nodup) :
    (addState l s).Nodup := by
  unfold addState
  by_cases hs : s ∈ l
  · simpa [hs]
  · simp [List.nodup_append, hs, h]

/-- Membership in a fold of `Set`-style insertions. -/
theorem mem_foldl_addState (f : String → String) (xs : List String) :
    ∀ init a,
      (a ∈ xs.foldl (fun acc s => addState acc (f s)) init ↔
        a ∈ init ∨ a ∈ xs.map f) := by
  induction xs with
  | nil => simp
  | cons x xs ih =>
    intro init a
    simp only [List.foldl_cons, List.map_cons, List.mem_cons]
    rw [ih, mem_addState]
    tauto

/-- A fold of `Set`-style insertions preserves distinctness. -/
theorem nodup_foldl_addState (f : String → String) (xs : List String) :
    ∀ init, init.Nodup →
      (xs.foldl (fun acc s => addState acc (f s)) init).Nodup := by
  induction xs with
  | nil => intro init h; exact h
  | cons x xs ih =>
    intro init h
    exact ih _ (nodup_addState _ _ h)

/-- The spec's multi-state scenario profile. -/
def multiStatePayload : Payload :=
  { defaultPayload with
    state := "NY", salesStates := ["CA", "NY"], collectsFromCA := true }

/-- C5: the jurisdiction footprint `statesArr` is exactly the deduplicated
union of the uppercased primary state, `otherStates`,
`remoteEmployeeStates`, `salesStates` and `collectsFromOtherStates`, plus
"CA" whenever `collectsFromCA` is flagged; in particular the scenario profile
with home state "NY" has "CA" in its footprint. -/
theorem buildCtx_statesArr_footprint (p : Payload) (s : String) :
    (s ∈ (buildCtx p).statesArr ↔
      (s = normState p.state ∨ s ∈ p.otherStates.map normState ∨
       s ∈ p.remoteEmployeeStates.map normState ∨
       s ∈ p.salesStates.map normState ∨
       s ∈ p.collectsFromOtherStates.map normState ∨
       (p.collectsFromCA = true ∧ s = "CA"))) ∧
    (buildCtx p).statesArr.Nodup ∧
    "CA" ∈ (buildCtx multiStatePayload).statesArr := by
  refine ⟨?_, ?_, by decide⟩
  · show s ∈ List.foldl _ _ _ ↔ _
    rw [mem_foldl_addState]
    by_cases hca : p.collectsFromCA = true
    · rw [if_pos hca, mem_addState, mem_foldl_addState, mem_foldl_addState,
        mem_foldl_addState, mem_addState]
      simp only [List.not_mem_nil, false_or, hca, true_and]
      tauto
    · rw [if_neg hca, mem_foldl_addState, mem_foldl_addState,
        mem_foldl_addState, mem_addState]
      simp only [List.not_mem_nil, false_or]
      constructor
      · tauto
      · rintro (h | h | h | h | h | ⟨hc, rfl⟩)
        · tauto
        · tauto
        · tauto
        · tauto
        · tauto
        · exact absurd hc hca
  · show List.Nodup (List.foldl _ _ _)
    apply nodup_foldl_addState
    by_cases hca : p.collectsFromCA = true
    · rw [if_pos hca]
      apply nodup_addState
      apply nodup_foldl_addState
      apply nodup_foldl_addState
      apply nodup_foldl_addState
      exact nodup_addState _ _ List.nodup_nil
    · rw [if_neg hca]
      apply nodup_foldl_addState
      apply nodup_foldl_addState
      apply nodup_foldl_addState
      exact nodup_addState _ _ List.nodup_nil

/-- If a string allow-list check did not fail (and its guard was taken), the
context value exists and appears in the list. -/
theorem chkStrAllowC_not_fail (proj : Ctx → Option String)
    (rf : String → String) (ov : Option JVal) (ctx : Ctx) (arr : List JVal)
    (harr : arrNE ov = some arr)
    (h : chkStrAllowC proj rf ov ctx ≠ CheckResult.fail) :
    ∃ t, proj ctx = some t ∧ strIncludes arr t = true := by
  unfold chkStrAllowC at h
  simp only [harr] at h
  cases hp : proj ctx with
  | none => simp only [hp] at h; exact absurd rfl h
  | some t =>
    simp only [hp] at h
    by_cases ht : t = ""
    · simp only [ht, if_true, if_pos] at h
      exact absurd rfl h
    · simp only [ht, if_false, if_neg, not_false_iff] at h
      by_cases hs : strIncludes arr t = true
      · exact ⟨t, rfl, hs⟩
      · simp only [hs, if_false] at h
        exact absurd rfl h

/-- If a defaulted string allow-list check did not fail (and its guard was
taken), the possibly-empty context value appears in the list. -/
theorem chkStrAllowDC_not_fail (proj : Ctx → Option String) (rs : String)
    (ov : Option JVal) (ctx : Ctx) (arr : List JVal)
    (harr : arrNE ov = some arr)
    (h : chkStrAllowDC proj rs ov ctx ≠ CheckResult.fail) :
    strIncludes arr ((proj ctx).getD "") = true := by
  unfold chkStrAllowDC at h
  simp only [harr] at h
  by_cases hs : strIncludes arr ((proj ctx).getD "") = true
  · exact hs
  · simp only [hs, if_false] at h
    exact absurd rfl h

/-- If the minors-age check did not fail (and its guard was taken), some
context age band appears in the list. -/
theorem chkMinorsC_not_fail (ov : Option JVal) (ctx : Ctx) (arr : List JVal)
    (harr : arrNE ov = some arr)
    (h : chkMinorsC ov ctx ≠ CheckResult.fail) :
    ∃ a, a ∈ ctx.minorsAges ∧ strIncludes arr a = true := by
  unfold chkMinorsC at h
  simp only [harr] at h
  by_cases hs : hasAnyJ arr ctx.minorsAges = true
  · unfold hasAnyJ at hs
    by_cases hemp : (arr.isEmpty || ctx.minorsAges.isEmpty) = true
    · rw [if_pos hemp] at hs; cases hs
    · rw [if_neg hemp] at hs
      obtain ⟨a, ha, hsa⟩ := List.any_eq_true.mp hs
      exact ⟨a, ha, hsa⟩
  · simp only [hs, if_false] at h
    exact absurd rfl h

/-- If the cross-state data-collection check neither failed nor threw (and
its guard was taken), the normalized list exists and intersects the context
states. -/
theorem chkCFOSC_not_fail (ov : Option JVal) (ctx : Ctx) (arr : List JVal)
    (harr : arrNE ov = some arr)
    (h : chkCFOSC ov ctx ≠ CheckResult.fail)
    (herr : chkCFOSC ov ctx ≠ CheckResult.err) :
    ∃ want, arr.mapM jsNormState = some want ∧
      ∃ s, s ∈ ctx.collectsFromOtherStates ∧ want.contains s = true := by
  unfold chkCFOSC at h herr
  simp only [harr] at h herr
  cases hm : arr.mapM jsNormState with
  | none => simp only [hm] at herr; exact absurd rfl herr
  | some want =>
    simp only [hm] at h
    by_cases hs : ctx.collectsFromOtherStates.any (fun s => want.contains s) = true
    · obtain ⟨s, hsmem, hsc⟩ := List.any_eq_true.mp hs
      exact ⟨want, rfl, ⟨s, hsmem, hsc⟩⟩
    · simp only [hs, if_false] at h
      exact absurd rfl h

/-- Success of `evalConditions` on a present document means no check failed
or threw. -/
theorem evalConditions_true_no_fail (c : Cond) (ctx : Ctx) (r : EvalResult)
    (h : evalConditions (some c) ctx = some r) (hok : r.ok = true) :
    ∀ e ∈ evalChecks, e.2 (getKey c e.1) ctx ≠ CheckResult.fail ∧
      e.2 (getKey c e.1) ctx ≠ CheckResult.err := by
  cases c with
  | nil =>
    intro e he
    have hskip := evalChecks_none_skip ctx e he
    rw [show getKey [] e.1 = none from rfl, hskip]
    refine ⟨fun hx => ?_, fun hx => ?_⟩ <;> cases hx
  | cons p rest =>
    exact runChecks_true_no_fail evalChecks (p :: rest) ctx [] r h hok

/-- The spec's scenario rule conditions. -/
def scenarioCond : Cond :=
  [("requiresAlcohol", JVal.bool true),
   ("alcoholSalesContext", JVal.arr [JVal.str "off-premise", JVal.str "both"])]

/-- C7: whenever an allow-list condition key is present with a non-empty
array, a matched rule's context value appears in that array (any-intersection
for the array-valued context fields; the structure/payroll keys compare the
context value defaulted to `""`); and the spec's off-premise alcohol scenario
matches with an alcohol-sales-context reason. -/
theorem evalConditions_allowlist :
    (∀ (c : Cond) (ctx : Ctx) (r : EvalResult),
      evalConditions (some c) ctx = some r → r.ok = true →
      ((∀ arr, arrNE (getKey c "alcoholType") = some arr →
          ∃ t, ctx.alcoholType = some t ∧ strIncludes arr t = true) ∧
       (∀ arr, arrNE (getKey c "alcoholSalesContext") = some arr →
          ∃ t, ctx.alcoholSalesContext = some t ∧ strIncludes arr t = true) ∧
       (∀ arr, arrNE (getKey c "minorsAges") = some arr →
          ∃ a, a ∈ ctx.minorsAges ∧ strIncludes arr a = true) ∧
       (∀ arr, arrNE (getKey c "tippedPercentBand") = some arr →
          ∃ t, ctx.tippedPercentBand = some t ∧ strIncludes arr t = true) ∧
       (∀ arr, arrNE (getKey c "dataVolumeBand") = some arr →
          ∃ t, ctx.dataVolumeBand = some t ∧ strIncludes arr t = true) ∧
       (∀ arr, arrNE (getKey c "collectsFromOtherStates") = some arr →
          ∃ want, arr.mapM jsNormState = some want ∧
            ∃ s, s ∈ ctx.collectsFromOtherStates ∧ want.contains s = true) ∧
       (∀ arr, arrNE (getKey c "revenueBand") = some arr →
          strIncludes arr (ctx.revenueBand.getD "") = true) ∧
       (∀ arr, arrNE (getKey c "legalStructure") = some arr →
          strIncludes arr (ctx.legalStructure.getD "") = true) ∧
       (∀ arr, arrNE (getKey c "payrollFrequency") = some arr →
          strIncludes arr (ctx.payrollFrequency.getD "") = true) ∧
       (∀ arr, arrNE (getKey c "numLocations") = some arr →
          strIncludes arr (ctx.numLocations.getD "") = true))) ∧
    evalConditions (some scenarioCond) (buildCtx scenarioPayload) =
      some { ok := true,
             reasons := ["Sells alcohol.", "Alcohol sales context matches (off-premise)."] } := by
  refine ⟨?_, by decide⟩
  intro c ctx r h hok
  have hnf := evalConditions_true_no_fail c ctx r h hok
  refine ⟨?_, ?_, ?_, ?_, ?_, ?_, ?_, ?_, ?_, ?_⟩
  · intro arr harr
    exact chkStrAllowC_not_fail _ _ _ _ arr harr
      (hnf ("alcoholType", chkStrAllowC (fun ctx => ctx.alcoholType)
        (fun t => "Alcohol type allowed (" ++ t ++ ")."))
        (by simp [evalChecks])).1
  · intro arr harr
    exact chkStrAllowC_not_fail _ _ _ _ arr harr
      (hnf ("alcoholSalesContext", chkStrAllowC (fun ctx => ctx.alcoholSalesContext)
        (fun t => "Alcohol sales context matches (" ++ t ++ ")."))
        (by simp [evalChecks])).1
  · intro arr harr
    exact chkMinorsC_not_fail _ _ arr harr
      (hnf ("minorsAges", chkMinorsC) (by simp [evalChecks])).1
  · intro arr harr
    exact chkStrAllowC_not_fail _ _ _ _ arr harr
      (hnf ("tippedPercentBand", chkStrAllowC (fun ctx => ctx.tippedPercentBand)
        (fun t => "Tipped share matches (" ++ t ++ ")."))
        (by simp [evalChecks])).1
  · intro arr harr
    exact chkStrAllowC_not_fail _ _ _ _ arr harr
      (hnf ("dataVolumeBand", chkStrAllowC (fun ctx => ctx.dataVolumeBand)
        (fun t => "Data volume band matches (" ++ t ++ ")."))
        (by simp [evalChecks])).1
  · intro arr harr
    have hp := hnf ("collectsFromOtherStates", chkCFOSC) (by simp [evalChecks])
    exact chkCFOSC_not_fail _ _ arr harr hp.1 hp.2
  · intro arr harr
    exact chkStrAllowDC_not_fail _ _ _ _ arr harr
      (hnf ("revenueBand", chkStrAllowDC (fun ctx => ctx.revenueBand)
        "revenueBand matches.") (by simp [evalChecks])).1
  · intro arr harr
    exact chkStrAllowDC_not_fail _ _ _ _ arr harr
      (hnf ("legalStructure", chkStrAllowDC (fun ctx => ctx.legalStructure)
        "legalStructure matches.") (by simp [evalChecks])).1
  · intro arr harr
    exact chkStrAllowDC_not_fail _ _ _ _ arr harr
      (hnf ("payrollFrequency", chkStrAllowDC (fun ctx => ctx.payrollFrequency)
        "payrollFrequency matches.") (by simp [evalChecks])).1
  · intro arr harr
    exact chkStrAllowDC_not_fail _ _ _ _ arr harr
      (hnf ("numLocations", chkStrAllowDC (fun ctx => ctx.numLocations)
        "numLocations matches.") (by simp [evalChecks])).1

/-- Witness for C7 at the scenario input: the matched rule's
`alcoholSalesContext` allow-list indeed contains the profile's context
value. -/
theorem evalConditions_allowlist_witness :
    ∃ t, (buildCtx scenarioPayload).alcoholSalesContext = some t ∧
      strIncludes [JVal.str "off-premise", JVal.str "both"] t = true :=
  (evalConditions_allowlist.1 scenarioCond (buildCtx scenarioPayload)
      { ok := true,
        reasons := ["Sells alcohol.", "Alcohol sales context matches (off-premise)."] }
      (by decide) rfl).2.1
    [JVal.str "off-premise", JVal.str "both"] (by rfl)

/-- When the `requiresFood` condition is not literally `true`, no check reads
the derived food flag: every check agrees on a context with the flag
flipped. -/
theorem evalChecks_food_agree (c : Cond) (ctx : Ctx) (b : Bool)
    (hne : getKey c "requiresFood" ≠ some (JVal.bool true)) :
    ∀ e ∈ evalChecks,
      e.2 (getKey c e.1) { ctx with requiresFood := b } =
        e.2 (getKey c e.1) ctx := by
  intro e he
  simp only [evalChecks, List.mem_cons, List.not_mem_nil, or_false] at he
  rcases he with rfl|rfl|rfl|rfl|rfl|rfl|rfl|rfl|rfl|rfl|rfl|rfl|rfl|rfl|rfl|rfl|rfl|rfl|rfl|rfl|rfl|rfl|rfl|rfl|rfl|rfl|rfl|rfl|rfl|rfl|rfl|rfl|rfl|rfl|rfl
  all_goals try rfl
  show chkTrueC (fun ctx => ctx.requiresFood) "Handles food / on-site prep."
      (getKey c "requiresFood") { ctx with requiresFood := b } =
    chkTrueC (fun ctx => ctx.requiresFood) "Handles food / on-site prep."
      (getKey c "requiresFood") ctx
  cases hk : getKey c "requiresFood" with
  | none => rfl
  | some v =>
    cases v with
    | null => rfl
    | num n => rfl
    | str s => rfl
    | arr l => rfl
    | bool bb =>
      cases bb with
      | false => rfl
      | true => exact absurd hk hne

/-- When the `requiresAlcohol` condition is not literally `true`, no check
reads the derived alcohol flag. -/
theorem evalChecks_alcohol_agree (c : Cond) (ctx : Ctx) (b : Bool)
    (hne : getKey c "requiresAlcohol" ≠ some (JVal.bool true)) :
    ∀ e ∈ evalChecks,
      e.2 (getKey c e.1) { ctx with requiresAlcohol := b } =
        e.2 (getKey c e.1) ctx := by
  intro e he
  simp only [evalChecks, List.mem_cons, List.not_mem_nil, or_false] at he
  rcases he with rfl|rfl|rfl|rfl|rfl|rfl|rfl|rfl|rfl|rfl|rfl|rfl|rfl|rfl|rfl|rfl|rfl|rfl|rfl|rfl|rfl|rfl|rfl|rfl|rfl|rfl|rfl|rfl|rfl|rfl|rfl|rfl|rfl|rfl|rfl
  all_goals try rfl
  show chkTrueC (fun ctx => ctx.requiresAlcohol) "Sells alcohol."
      (getKey c "requiresAlcohol") { ctx with requiresAlcohol := b } =
    chkTrueC (fun ctx => ctx.requiresAlcohol) "Sells alcohol."
      (getKey c "requiresAlcohol") ctx
  cases hk : getKey c "requiresAlcohol" with
  | none => rfl
  | some v =>
    cases v with
    | null => rfl
    | num n => rfl
    | str s => rfl
    | arr l => rfl
    | bool bb =>
      cases bb with
      | false => rfl
      | true => exact absurd hk hne

/-- C6: the derived-boolean gates `requiresFood` / `requiresAlcohol`
constrain the match only when the condition value is literally `true`
(rejecting contexts whose derived flag is false); any other condition value
leaves the result independent of the derived flag, so it never requires the
flag to be false. -/
theorem evalConditions_boolean_gates (c : Cond) (ctx : Ctx) (b : Bool) :
    ((getKey c "requiresFood" = some (JVal.bool true) → ctx.requiresFood = false →
        ∀ r, evalConditions (some c) ctx = some r → r.ok = false) ∧
     (getKey c "requiresFood" ≠ some (JVal.bool true) →
        evalConditions (some c) { ctx with requiresFood := b } =
          evalConditions (some c) ctx)) ∧
    ((getKey c "requiresAlcohol" = some (JVal.bool true) → ctx.requiresAlcohol = false →
        ∀ r, evalConditions (some c) ctx = some r → r.ok = false) ∧
     (getKey c "requiresAlcohol" ≠ some (JVal.bool true) →
        evalConditions (some c) { ctx with requiresAlcohol := b } =
          evalConditions (some c) ctx)) := by
  refine ⟨⟨?_, ?_⟩, ⟨?_, ?_⟩⟩
  · intro hk hflag r h
    cases c with
    | nil => cases hk
    | cons p rest =>
      have hfail : chkTrueC (fun ctx => ctx.requiresFood)
          "Handles food / on-site prep."
          (getKey (p :: rest) "requiresFood") ctx = CheckResult.fail := by
        rw [hk]
        unfold chkTrueC
        simp [hflag]
      exact (runChecks_mem_fail evalChecks (p :: rest) ctx
        ("requiresFood", chkTrueC (fun ctx => ctx.requiresFood)
          "Handles food / on-site prep.") (by simp [evalChecks]) hfail [] r h).1
  · intro hne
    cases c with
    | nil => rfl
    | cons p rest =>
      exact runChecks_congr evalChecks (p :: rest) (p :: rest) _ ctx
        (evalChecks_food_agree (p :: rest) ctx b hne) []
  · intro hk hflag r h
    cases c with
    | nil => cases hk
    | cons p rest =>
      have hfail : chkTrueC (fun ctx => ctx.requiresAlcohol) "Sells alcohol."
          (getKey (p :: rest) "requiresAlcohol") ctx = CheckResult.fail := by
        rw [hk]
        unfold chkTrueC
        simp [hflag]
      exact (runChecks_mem_fail evalChecks (p :: rest) ctx
        ("requiresAlcohol", chkTrueC (fun ctx => ctx.requiresAlcohol)
          "Sells alcohol.") (by simp [evalChecks]) hfail [] r h).1
  · intro hne
    cases c with
    | nil => rfl
    | cons p rest =>
      exact runChecks_congr evalChecks (p :: rest) (p :: rest) _ ctx
        (evalChecks_alcohol_agree (p :: rest) ctx b hne) []

/-- Witness for C6 at concrete inputs: a `requiresFood: true` condition
rejects the default (non-food) profile, while a `requiresFood: false`
condition leaves the result unchanged when the derived food flag flips. -/
theorem evalConditions_boolean_gates_witness :
    ({ ok := false, reasons := [] } : EvalResult).ok = false ∧
    evalConditions (some [("requiresFood", JVal.bool false)])
        { (buildCtx defaultPayload) with requiresFood := true } =
      evalConditions (some [("requiresFood", JVal.bool false)])
        (buildCtx defaultPayload) :=
  ⟨(evalConditions_boolean_gates [("requiresFood", JVal.bool true)]
      (buildCtx defaultPayload) true).1.1 (by rfl) (by rfl)
      { ok := false, reasons := [] } (by decide),
   (evalConditions_boolean_gates [("requiresFood", JVal.bool false)]
      (buildCtx defaultPayload) true).1.2
     (by rw [show getKey [("requiresFood", JVal.bool false)] "requiresFood" =
          some (JVal.bool false) from rfl]
         simp)⟩

/-- The recognized allow-list (array-guarded) condition keys. -/
def recognizedArrKeys : List String :=
  ["industry", "alcoholType", "alcoholSalesContext", "cities", "minorsAges",
   "tippedPercentBand", "collectsFromOtherStates", "dataVolumeBand",
   "revenueBand", "legalStructure", "payrollFrequency", "numLocations"]

/-- The recognized exact-boolean condition keys. -/
def recognizedBoolKeys : List String :=
  ["employsMinors", "tippedWorkers", "commercialVehicles", "hasCDLDrivers",
   "trucksOver10kInterstate", "usesForklifts", "hazardousMaterials",
   "collectsCustomerData", "handlesPHI", "childrenUnder13", "collectsFromCA",
   "sellsOrSharesData", "usesBiometrics", "onSitePrep", "seatingOnPrem",
   "meatDairy", "publicFacingSite", "hasWebsiteOrApp", "acceptsCardPayments"]

/-- Whether the value `v` stored under condition key `k` passes that key's
applicability guard in `evalConditions` (`typeof` / `Array.isArray` /
`=== true`).  A recognized key holding a wrong-shape value, and any
unrecognized key, yields `false` — the key is skipped. -/
def appliesAt (k : String) (v : JVal) : Bool :=
  if k = "employeesMin" ∨ k = "employeesMax" then isNum v
  else if k = "requiresFood" ∨ k = "requiresAlcohol" then isTrueLit v
  else if k ∈ recognizedArrKeys then isArrNE v
  else if k ∈ recognizedBoolKeys then isBool v
  else false

/-- A non-number value skips a numeric-bound check. -/
theorem chkNumC_skip (bad : Ctx → Int → Bool) (reason : Ctx → Int → String)
    (v : JVal) (ctx : Ctx) (hv : isNum v = false) :
    chkNumC bad reason (some v) ctx = CheckResult.skip := by
  cases v with
  | num n => simp [isNum] at hv
  | null => rfl
  | bool b => rfl
  | str s => rfl
  | arr l => rfl

/-- A value other than literal `true` skips a gate check. -/
theorem chkTrueC_skip (proj : Ctx → Bool) (reason : String)
    (v : JVal) (ctx : Ctx) (hv : isTrueLit v = false) :
    chkTrueC proj reason (some v) ctx = CheckResult.skip := by
  cases v with
  | bool b =>
    cases b with
    | true => simp [isTrueLit] at hv
    | false => rfl
  | null => rfl
  | num n => rfl
  | str s => rfl
  | arr l => rfl

/-- A non-boolean value skips an exact-boolean check. -/
theorem chkBoolC_skip (proj : Ctx → Bool) (reason : Bool → String)
    (v : JVal) (ctx : Ctx) (hv : isBool v = false) :
    chkBoolC proj reason (some v) ctx = CheckResult.skip := by
  cases v with
  | bool b => simp [isBool] at hv
  | null => rfl
  | num n => rfl
  | str s => rfl
  | arr l => rfl

/-- A value that is not a non-empty array fails the array guard. -/
theorem arrNE_none (v : JVal) (hv : isArrNE v = false) : arrNE (some v) = none := by
  cases v with
  | arr l =>
    cases l with
    | nil => rfl
    | cons x xs => simp [isArrNE] at hv
  | null => rfl
  | bool b => rfl
  | num n => rfl
  | str s => rfl

/-- A value that is not a non-empty array skips a string allow-list check. -/
theorem chkStrAllowC_skip (proj : Ctx → Option String) (rf : String → String)
    (v : JVal) (ctx : Ctx) (hv : isArrNE v = false) :
    chkStrAllowC proj rf (some v) ctx = CheckResult.skip := by
  unfold chkStrAllowC
  rw [arrNE_none v hv]

/-- A value that is not a non-empty array skips a defaulted allow-list
check. -/
theorem chkStrAllowDC_skip (proj : Ctx → Option String) (rs : String)
    (v : JVal) (ctx : Ctx) (hv : isArrNE v = false) :
    chkStrAllowDC proj rs (some v) ctx = CheckResult.skip := by
  unfold chkStrAllowDC
  rw [arrNE_none v hv]

/-- A value that is not a non-empty array skips the industry check. -/
theorem chkIndustryC_skip (v : JVal) (ctx : Ctx) (hv : isArrNE v = false) :
    chkIndustryC (some v) ctx = CheckResult.skip := by
  unfold chkIndustryC
  rw [arrNE_none v hv]

/-- A value that is not a non-empty array skips the cities check. -/
theorem chkCitiesC_skip (v : JVal) (ctx : Ctx) (hv : isArrNE v = false) :
    chkCitiesC (some v) ctx = CheckResult.skip := by
  unfold chkCitiesC
  rw [arrNE_none v hv]

/-- A value that is not a non-empty array skips the minors-age check. -/
theorem chkMinorsC_skip (v : JVal) (ctx : Ctx) (hv : isArrNE v = false) :
    chkMinorsC (some v) ctx = CheckResult.skip := by
  unfold chkMinorsC
  rw [arrNE_none v hv]

/-- A value that is not a non-empty array skips the cross-state check. -/
theorem chkCFOSC_skip (v : JVal) (ctx : Ctx) (hv : isArrNE v = false) :
    chkCFOSC (some v) ctx = CheckResult.skip := by
  unfold chkCFOSC
  rw [arrNE_none v hv]

/-- A value failing its key's applicability guard is skipped by every check
that reads that key. -/
theorem evalChecks_skip_of_not_applies (k : String) (v : JVal) (ctx : Ctx)
    (happ : appliesAt k v = false) :
    ∀ e ∈ evalChecks, e.1 = k → e.2 (some v) ctx = CheckResult.skip := by
  intro e he hkey
  rw [← hkey] at happ
  simp only [evalChecks, List.mem_cons, List.not_mem_nil, or_false] at he
  rcases he with rfl|rfl|rfl|rfl|rfl|rfl|rfl|rfl|rfl|rfl|rfl|rfl|rfl|rfl|rfl|rfl|rfl|rfl|rfl|rfl|rfl|rfl|rfl|rfl|rfl|rfl|rfl|rfl|rfl|rfl|rfl|rfl|rfl|rfl|rfl
  all_goals first
    | apply chkNumC_skip _ _ v ctx
        (by simpa [appliesAt, recognizedArrKeys, recognizedBoolKeys] using happ)
    | apply chkTrueC_skip _ _ v ctx
        (by simpa [appliesAt, recognizedArrKeys, recognizedBoolKeys] using happ)
    | apply chkBoolC_skip _ _ v ctx
        (by simpa [appliesAt, recognizedArrKeys, recognizedBoolKeys] using happ)
    | apply chkStrAllowC_skip _ _ v ctx
        (by simpa [appliesAt, recognizedArrKeys, recognizedBoolKeys] using happ)
    | apply chkStrAllowDC_skip _ _ v ctx
        (by simpa [appliesAt, recognizedArrKeys, recognizedBoolKeys] using happ)
    | apply chkIndustryC_skip v ctx
        (by simpa [appliesAt, recognizedArrKeys, recognizedBoolKeys] using happ)
    | apply chkCitiesC_skip v ctx
        (by simpa [appliesAt, recognizedArrKeys, recognizedBoolKeys] using happ)
    | apply chkMinorsC_skip v ctx
        (by simpa [appliesAt, recognizedArrKeys, recognizedBoolKeys] using happ)
    | apply chkCFOSC_skip v ctx
        (by simpa [appliesAt, recognizedArrKeys, recognizedBoolKeys] using happ)

/-- Dropping a leading field whose value fails its guard leaves every check's
outcome unchanged. -/
theorem evalChecks_agree_cons (k : String) (v : JVal) (rest : Cond) (ctx : Ctx)
    (happ : appliesAt k v = false) (hrest : getKey rest k = none) :
    ∀ e ∈ evalChecks,
      e.2 (getKey ((k, v) :: rest) e.1) ctx = e.2 (getKey rest e.1) ctx := by
  intro e he
  by_cases hk : k = e.1
  · rw [show getKey ((k, v) :: rest) e.1 = some v from by simp [getKey, hk],
      show getKey rest e.1 = none from hk ▸ hrest]
    rw [evalChecks_skip_of_not_applies k v ctx happ e he hk.symm,
      evalChecks_none_skip ctx e he]
  · rw [show getKey ((k, v) :: rest) e.1 = getKey rest e.1 from by
      simp [getKey, hk]]

/-- When every check skips, the run matches with the generic fallback
reason. -/
theorem runChecks_all_skip (cs : List (String × (Option JVal → Ctx → CheckResult)))
    (c : Cond) (ctx : Ctx)
    (hall : ∀ e ∈ cs, e.2 (getKey c e.1) ctx = CheckResult.skip) :
    ∀ acc, runChecks cs c ctx acc =
      some { ok := true,
             reasons := if acc.isEmpty then ["Meets rule conditions."] else acc } := by
  induction cs with
  | nil => intro acc; rfl
  | cons e rest ih =>
    intro acc
    obtain ⟨k, f⟩ := e
    have hhead := hall ⟨k, f⟩ (List.mem_cons_self _ _)
    change f (getKey c k) ctx = CheckResult.skip at hhead
    simp only [runChecks, hhead]
    exact ih (fun e he => hall e (List.mem_cons_of_mem _ he)) acc

/-- C1 (amended): a condition field whose value has the wrong shape for its
recognized key (or an unrecognized key) is ignored — the rule is evaluated
exactly as if the field were absent, so its match status is decided by the
remaining keys alone and evaluation completes normally. -/
theorem evalConditions_malformed_key_ignored (k : String) (v : JVal)
    (rest : Cond) (ctx : Ctx) (happ : appliesAt k v = false)
    (hrest : getKey rest k = none) :
    Option.map EvalResult.ok (evalConditions (some ((k, v) :: rest)) ctx) =
      Option.map EvalResult.ok (evalConditions (some rest) ctx) := by
  have hagree := evalChecks_agree_cons k v rest ctx happ hrest
  cases rest with
  | nil =>
    have hall : ∀ e ∈ evalChecks,
        e.2 (getKey [(k, v)] e.1) ctx = CheckResult.skip := by
      intro e he
      rw [hagree e he]
      exact evalChecks_none_skip ctx e he
    show Option.map _ (runChecks evalChecks [(k, v)] ctx []) = _
    rw [runChecks_all_skip evalChecks [(k, v)] ctx hall []]
    rfl
  | cons q rest' =>
    show Option.map _ (runChecks evalChecks ((k, v) :: q :: rest') ctx []) =
      Option.map _ (runChecks evalChecks (q :: rest') ctx [])
    rw [runChecks_congr evalChecks ((k, v) :: q :: rest') (q :: rest') ctx ctx
      hagree []]

/-- Counterexample to C1 as stated: against the scenario profile (3
employees), a rule whose `employeesMin` holds the wrong-shape string `"10"`
is NOT rejected — it matches (the malformed key is ignored) — whereas the
same rule with the well-shaped number `10` is rejected. -/
theorem evalConditions_malformed_key_counterexample :
    evalConditions (some [("employeesMin", JVal.str "10")])
        (buildCtx scenarioPayload) =
      some { ok := true, reasons := ["Meets rule conditions."] } ∧
    evalConditions (some [("employeesMin", JVal.num 10)])
        (buildCtx scenarioPayload) =
      some { ok := false, reasons := [] } :=
  ⟨by decide, by decide⟩

/-- Witness for the amended C1 at a concrete input: the wrong-shape
`employeesMin: "10"` document matches exactly like the empty document. -/
theorem evalConditions_malformed_key_ignored_witness :
    Option.map EvalResult.ok (evalConditions
        (some [("employeesMin", JVal.str "10")]) (buildCtx scenarioPayload)) =
      Option.map EvalResult.ok (evalConditions (some [])
        (buildCtx scenarioPayload)) :=
  evalConditions_malformed_key_ignored "employeesMin" (JVal.str "10") []
    (buildCtx scenarioPayload) (by decide) (by rfl)

/-- The `ORDER BY` rank of the candidate query
(`CASE level WHEN federal THEN 1 WHEN state THEN 2 ELSE 3 END`). -/
def levelRank : Level → Nat
  | .federal => 1
  | .state => 2
  | .city => 3

/-- The retriever's ordering contract: ascending level rank, title-ascending
within a level. -/
def retrieverOrd (a b : RuleRow) : Prop :=
  levelRank a.level < levelRank b.level ∨ (a.level = b.level ∧ a.title ≤ b.title)

/-- `collectMatched` succeeds with exactly the matched rows, in order. -/
theorem collectMatched_ok (ctx : Ctx) :
    ∀ (rows : List RuleRow) (l : List (RuleRow × List String)),
      collectMatched rows ctx = .ok l →
      l.map (fun m => m.1) = rows.filter (fun r => isMatched r ctx) := by
  intro rows
  induction rows with
  | nil =>
    intro l h
    cases h
    rfl
  | cons r rs ih =>
    intro l h
    simp only [collectMatched] at h
    cases heval : evalConditions r.conditions ctx with
    | none => rw [heval] at h; cases h
    | some res =>
      rw [heval] at h
      cases hrec : collectMatched rs ctx with
      | error e => rw [hrec] at h; cases h
      | ok rest =>
        rw [hrec] at h
        cases h
        have hmatch : isMatched r ctx = res.ok := by
          unfold isMatched
          rw [heval]
        cases hok : res.ok <;>
          simp [List.filter_cons, hmatch, hok, ih rest hrec]

/-- A successful `toPublic` preserves id, title and level. -/
theorem toPublic_ok_fields (r : RuleRow) (reasons : List String) (p : Payload)
    (q : PublicRule) (h : toPublic r reasons p = .ok q) :
    q.id = r.id ∧ q.title = r.title ∧ q.level = r.level := by
  simp only [toPublic] at h
  cases hd : computeDueDate (r.conditions.getD []) p with
  | error e => rw [hd] at h; cases h
  | ok dd =>
    rw [hd] at h
    cases h
    exact ⟨rfl, rfl, rfl⟩

/-- A successful `toPublicAll` maps ids, titles and length through. -/
theorem toPublicAll_ok (p : Payload) :
    ∀ (ms : List (RuleRow × List String)) (qs : List PublicRule),
      toPublicAll ms p = .ok qs →
      qs.map (fun q => q.id) = ms.map (fun m => m.1.id) ∧
      qs.map (fun q => q.title) = ms.map (fun m => m.1.title) ∧
      qs.length = ms.length := by
  intro ms
  induction ms with
  | nil =>
    intro qs h
    cases h
    exact ⟨rfl, rfl, rfl⟩
  | cons m ms ih =>
    intro qs h
    simp only [toPublicAll] at h
    cases hq : toPublic m.1 m.2 p with
    | error e => rw [hq] at h; cases h
    | ok q =>
      rw [hq] at h
      cases hrec : toPublicAll ms p with
      | error e => rw [hrec] at h; cases h
      | ok qs' =>
        rw [hrec] at h
        cases h
        obtain ⟨hid, htitle, _⟩ := toPublic_ok_fields m.1 m.2 p q hq
        obtain ⟨hids, htitles, hlen⟩ := ih qs' hrec
        simp only [List.map_cons, List.length_cons]
        exact ⟨by rw [hid, hids], by rw [htitle, htitles], by rw [hlen]⟩

/-- Projecting the row out of a level-filtered matched list commutes with
the filter. -/
theorem map_fst_filter (l : List (RuleRow × List String)) (L : Level) :
    ((l.filter fun m => m.1.level == L).map fun m => m.1) =
      (l.map fun m => m.1).filter (fun r => r.level == L) := by
  induction l with
  | nil => rfl
  | cons m ms ih =>
    simp only [List.filter_cons, List.map_cons]
    cases hp : m.1.level == L <;> simp [hp, ih]

/-- The three levels partition the matched candidates. -/
theorem length_filter_levels (q : RuleRow → Bool) :
    ∀ rows : List RuleRow,
      (rows.filter fun r => q r && (r.level == Level.federal)).length +
      (rows.filter fun r => q r && (r.level == Level.state)).length +
      (rows.filter fun r => q r && (r.level == Level.city)).length =
      (rows.filter q).length := by
  intro rows
  induction rows with
  | nil => rfl
  | cons r rs ih =>
    simp only [List.filter_cons]
    cases hq : q r <;> cases hl : r.level <;>
      simp only [Bool.true_and, Bool.false_and, beq_self_eq_true,
        beq_iff_eq, if_true, if_false, ite_true, ite_false, List.length_cons] <;>
      simp_all <;> omega

/-- C8: the assembler partitions the matched candidates into per-level groups
with no further filtering or re-sorting: each group lists exactly the matched
candidates of its level in candidate order (an order-preserving
subsequence of the level's candidates), the count is the number of matched
candidates, and a retriever-ordered input yields title-sorted groups. -/
theorem matchRules_grouping (rows : List RuleRow) (p : Payload)
    (out : MatchOutput) (h : matchRules rows p = .ok out) :
    (out.grouped.federal.map (fun q => q.id) =
      (rows.filter fun r => isMatched r (buildCtx p) &&
        (r.level == Level.federal)).map (fun r => r.id)) ∧
    (out.grouped.state.map (fun q => q.id) =
      (rows.filter fun r => isMatched r (buildCtx p) &&
        (r.level == Level.state)).map (fun r => r.id)) ∧
    (out.grouped.city.map (fun q => q.id) =
      (rows.filter fun r => isMatched r (buildCtx p) &&
        (r.level == Level.city)).map (fun r => r.id)) ∧
    List.Sublist (out.grouped.federal.map (fun q => q.id))
      ((rows.filter fun r => r.level == Level.federal).map (fun r => r.id)) ∧
    List.Sublist (out.grouped.state.map (fun q => q.id))
      ((rows.filter fun r => r.level == Level.state).map (fun r => r.id)) ∧
    List.Sublist (out.grouped.city.map (fun q => q.id))
      ((rows.filter fun r => r.level == Level.city).map (fun r => r.id)) ∧
    out.count = (rows.filter fun r => isMatched r (buildCtx p)).length ∧
    (rows.Pairwise retrieverOrd →
      (out.grouped.federal.map fun q => q.title).Pairwise (fun a b => a ≤ b)) ∧
    (rows.Pairwise retrieverOrd →
      (out.grouped.state.map fun q => q.title).Pairwise (fun a b => a ≤ b)) ∧
    (rows.Pairwise retrieverOrd →
      (out.grouped.city.map fun q => q.title).Pairwise (fun a b => a ≤ b)) := by
  simp only [matchRules] at h
  cases hc : collectMatched rows (buildCtx p) with
  | error e => rw [hc] at h; cases h
  | ok matched =>
  simp only [hc] at h
  cases h1 : toPublicAll (matched.filter fun m => m.1.level == Level.federal) p with
  | error e => rw [h1] at h; cases h
  | ok fed =>
  simp only [h1] at h
  cases h2 : toPublicAll (matched.filter fun m => m.1.level == Level.state) p with
  | error e => rw [h2] at h; cases h
  | ok st =>
  simp only [h2] at h
  cases h3 : toPublicAll (matched.filter fun m => m.1.level == Level.city) p with
  | error e => rw [h3] at h; cases h
  | ok ci =>
  simp only [h3] at h
  cases h
  have hm := collectMatched_ok (buildCtx p) rows matched hc
  have key : ∀ (L : Level) (qs : List PublicRule),
      toPublicAll (matched.filter fun m => m.1.level == L) p = .ok qs →
      qs.map (fun q => q.id) =
        (rows.filter fun r => isMatched r (buildCtx p) && (r.level == L)).map
          (fun r => r.id) ∧
      qs.map (fun q => q.title) =
        (rows.filter fun r => isMatched r (buildCtx p) && (r.level == L)).map
          (fun r => r.title) ∧
      qs.length =
        (rows.filter fun r => isMatched r (buildCtx p) && (r.level == L)).length := by
    intro L qs hq
    obtain ⟨hids, htitles, hlen⟩ := toPublicAll_ok p _ qs hq
    have hrows : (matched.filter fun m => m.1.level == L).map (fun m => m.1) =
        rows.filter (fun r => isMatched r (buildCtx p) && (r.level == L)) := by
      rw [map_fst_filter, hm, List.filter_filter]
      exact List.filter_congr (fun a _ => by rw [Bool.and_comm])
    refine ⟨?_, ?_, ?_⟩
    · calc qs.map (fun q => q.id)
          = (matched.filter fun m => m.1.level == L).map (fun m => m.1.id) := hids
        _ = ((matched.filter fun m => m.1.level == L).map (fun m => m.1)).map
              (fun r => r.id) := by simp
        _ = _ := by rw [hrows]
    · calc qs.map (fun q => q.title)
          = (matched.filter fun m => m.1.level == L).map (fun m => m.1.title) := htitles
        _ = ((matched.filter fun m => m.1.level == L).map (fun m => m.1)).map
              (fun r => r.title) := by simp
        _ = _ := by rw [hrows]
    · calc qs.length
          = (matched.filter fun m => m.1.level == L).length := hlen
        _ = ((matched.filter fun m => m.1.level == L).map (fun m => m.1)).length := by
            rw [List.length_map]
        _ = _ := by rw [hrows]
  have hfed := key Level.federal fed h1
  have hst := key Level.state st h2
  have hci := key Level.city ci h3
  have hsub : ∀ L : Level,
      List.Sublist
        ((rows.filter fun r => isMatched r (buildCtx p) && (r.level == L)).map
          (fun r => r.id))
        ((rows.filter fun r => r.level == L).map (fun r => r.id)) := by
    intro L
    rw [← List.filter_filter]
    exact (List.filter_sublist _).map _
  have hsorted : ∀ L : Level, rows.Pairwise retrieverOrd →
      ((rows.filter fun r => isMatched r (buildCtx p) && (r.level == L)).map
        (fun r => r.title)).Pairwise (fun a b => a ≤ b) := by
    intro L hsort
    rw [List.pairwise_map]
    have hpw : (rows.filter fun r => isMatched r (buildCtx p) &&
        (r.level == L)).Pairwise retrieverOrd :=
      hsort.sublist (List.filter_sublist _)
    refine List.Pairwise.imp_of_mem ?_ hpw
    intro a b ha hb hr
    have hla : a.level = L := by
      have hx := (List.mem_filter.mp ha).2
      simp only [Bool.and_eq_true, beq_iff_eq] at hx
      exact hx.2
    have hlb : b.level = L := by
      have hx := (List.mem_filter.mp hb).2
      simp only [Bool.and_eq_true, beq_iff_eq] at hx
      exact hx.2
    rcases hr with hlt | ⟨_, hle⟩
    · rw [hla, hlb] at hlt
      exact absurd hlt (lt_irrefl _)
    · exact hle
  refine ⟨?_, ?_, ?_, ?_, ?_, ?_, ?_, ?_, ?_, ?_⟩
  · exact hfed.1
  · exact hst.1
  · exact hci.1
  · rw [hfed.1]; exact hsub Level.federal
  · rw [hst.1]; exact hsub Level.state
  · rw [hci.1]; exact hsub Level.city
  · show fed.length + st.length + ci.length + List.length [] =
      (rows.filter fun r => isMatched r (buildCtx p)).length
    rw [hfed.2.2, hst.2.2, hci.2.2]
    simp only [List.length_nil, Nat.add_zero]
    exact length_filter_levels (fun r => isMatched r (buildCtx p)) rows
  · intro hsort
    rw [hfed.2.1]
    exact hsorted Level.federal hsort
  · intro hsort
    rw [hst.2.1]
    exact hsorted Level.state hsort
  · intro hsort
    rw [hci.2.1]
    exact hsorted Level.city hsort

/-- C9: the `industry` bucket of the grouped output is reserved and always
empty, so the reported count is the sum of the federal, state and city group
sizes alone. -/
theorem matchRules_industry_reserved (rows : List RuleRow) (p : Payload)
    (out : MatchOutput) (h : matchRules rows p = .ok out) :
    out.grouped.industry = [] ∧
    out.count = out.grouped.federal.length + out.grouped.state.length +
      out.grouped.city.length := by
  simp only [matchRules] at h
  cases hc : collectMatched rows (buildCtx p) with
  | error e => rw [hc] at h; cases h
  | ok matched =>
  simp only [hc] at h
  cases h1 : toPublicAll (matched.filter fun m => m.1.level == Level.federal) p with
  | error e => rw [h1] at h; cases h
  | ok fed =>
  simp only [h1] at h
  cases h2 : toPublicAll (matched.filter fun m => m.1.level == Level.state) p with
  | error e => rw [h2] at h; cases h
  | ok st =>
  simp only [h2] at h
  cases h3 : toPublicAll (matched.filter fun m => m.1.level == Level.city) p with
  | error e => rw [h3] at h; cases h
  | ok ci =>
  simp only [h3] at h
  cases h
  exact ⟨rfl, rfl⟩

/-- A federal candidate with no conditions. -/
def rowFed : RuleRow :=
  { id := "fed-1", title := "A federal posting rule", summary := none,
    source := none, level := .federal, jurisdiction_state := none,
    jurisdiction_city := none, conditions := none }

/-- A Californian state candidate requiring at least ten employees. -/
def rowState : RuleRow :=
  { id := "ca-1", title := "CA headcount rule", summary := none,
    source := none, level := .state, jurisdiction_state := some "CA",
    jurisdiction_city := none,
    conditions := some [("employeesMin", JVal.num 10)] }

/-- A two-candidate retrieval in retriever order. -/
def exampleRows : List RuleRow := [rowFed, rowState]

/-- The grouped output `matchRules` produces for the example retrieval and
the scenario profile. -/
def exampleOut : MatchOutput :=
  (matchRules exampleRows scenarioPayload).toOption.getD
    { grouped := { federal := [], state := [], city := [], industry := [] },
      count := 0 }

/-- Witness for C8 at a concrete input: for the two-candidate example (the
state rule is rejected for the three-employee profile), the count equals the
number of matched candidates and the federal group's titles are sorted. -/
theorem matchRules_grouping_witness :
    exampleOut.count =
      (exampleRows.filter fun r => isMatched r (buildCtx scenarioPayload)).length ∧
    (exampleOut.grouped.federal.map fun q => q.title).Pairwise (fun a b => a ≤ b) := by
  have hsort : exampleRows.Pairwise retrieverOrd := by
    refine List.Pairwise.cons ?_ (List.pairwise_singleton _ _)
    intro b hb
    rw [List.mem_singleton] at hb
    subst hb
    exact Or.inl (by decide)
  have hgr := matchRules_grouping exampleRows scenarioPayload exampleOut (by rfl)
  exact ⟨hgr.2.2.2.2.2.2.1, hgr.2.2.2.2.2.2.2.1 hsort⟩

/-- Witness for C9 at a concrete input: the example output's industry bucket
is empty and its count is the sum of the three level groups. -/
theorem matchRules_industry_reserved_witness :
    exampleOut.grouped.industry = [] ∧
    exampleOut.count = exampleOut.grouped.federal.length +
      exampleOut.grouped.state.length + exampleOut.grouped.city.length :=
  matchRules_industry_reserved exampleRows scenarioPayload exampleOut (by rfl)
